import Mathlib

/-!
Shallow embedding of the document classification and field-extraction
pipeline of `src/main.py` (PDF Document Extractor API).

Python strings are modelled as Lean `String` / `List Char`; Python regular
expressions are embedded as dedicated matcher functions built from small
backtracking (CPS) combinators that reproduce leftmost search and greedy
quantifier semantics for exactly the patterns occurring in the source.
Python `None` is `Option.none`; a Python dict of extracted fields is an
ordered association list `List (String × Option String)`.
-/

namespace PdfExtractor

/-- A Python dict from field name to `str` or `None`, in insertion order. -/
abbrev ExtractedRecord := List (String × Option String)

-- ===================== character classes =====================

/-- Python regex `\s` (ASCII fragment): space, tab, newline, CR, VT, FF. -/
def wsChar (c : Char) : Bool :=
  c = ' ' || c = '\t' || c = '\n' || c = '\r' || c = '\x0b' || c = '\x0c'

/-- Python regex `\w` (ASCII fragment): letters, digits, underscore. -/
def isWordChar (c : Char) : Bool :=
  c.isAlpha || c.isDigit || c = '_'

/-- Python regex `\d` (ASCII). -/
def isDigitChar (c : Char) : Bool := c.isDigit

def isUpperAlpha (c : Char) : Bool := 'A' ≤ c && c ≤ 'Z'

def isAlphaChar (c : Char) : Bool := c.isAlpha

/-- Case-insensitive character comparison (`re.IGNORECASE`). -/
def ciEq (a b : Char) : Bool := a.toUpper == b.toUpper

/-- Case-sensitive character comparison. -/
def csEq (a b : Char) : Bool := a == b

-- ===================== list/string utilities =====================

/-- `nee` is a leading segment (prefix) of `hay`. -/
def leadsList : List Char → List Char → Bool
  | [], _ => true
  | _ :: _, [] => false
  | a :: as, b :: bs => a == b && leadsList as bs

/-- `hay` has `nee` as a contiguous sublist somewhere (substring search). -/
def listContains : List Char → List Char → Bool
  | [], nee => nee.isEmpty
  | c :: t, nee => leadsList nee (c :: t) || listContains t nee

/-- Python `str.strip()` on a character list (ASCII whitespace). -/
def stripChars (cs : List Char) : List Char :=
  ((cs.dropWhile wsChar).reverse.dropWhile wsChar).reverse

/-- Python `str.strip()`. -/
def stripStr (s : String) : String := String.mk (stripChars s.data)

/-- Helper of `splitWs`: accumulates the current word (reversed). -/
def splitWsAux : List Char → List Char → List (List Char)
  | [], acc => if acc.isEmpty then [] else [acc.reverse]
  | c :: cs, acc =>
    if wsChar c then
      if acc.isEmpty then splitWsAux cs [] else acc.reverse :: splitWsAux cs []
    else splitWsAux cs (c :: acc)

/-- Python `str.split()` with no argument: split on whitespace runs, dropping
empty pieces. -/
def splitWs (cs : List Char) : List (List Char) := splitWsAux cs []

/-- Python `" ".join(words)`. -/
def joinWords : List (List Char) → List Char
  | [] => []
  | [w] => w
  | w :: ws => w ++ ' ' :: joinWords ws

/-- Python `str.lower()` (ASCII model). -/
def toLowerStr (s : String) : String := String.mk (s.data.map Char.toLower)

/-- Python `str.upper()` (ASCII model). -/
def toUpperStr (s : String) : String := String.mk (s.data.map Char.toUpper)

/-- Python `s.endswith(suffix)`. -/
def endsWithStr (s suf : String) : Bool :=
  leadsList suf.data.reverse s.data.reverse

/-- Python `str.zfill(2)` for the day components used by the source. -/
def zfill2 (s : String) : String :=
  if s.length ≥ 2 then s else String.mk (List.replicate (2 - s.length) '0') ++ s

/-- Python `text.split(sep)` for a non-empty separator (the semantics of
`String.splitOn`, re-implemented structurally over character lists with a
length fuel so that it evaluates by kernel reduction). -/
def splitOnFuel (sep : List Char) : Nat → List Char → List Char → List (List Char)
  | _, [], acc => [acc.reverse]
  | 0, cs, acc => [acc.reverse ++ cs]
  | fuel + 1, c :: cs, acc =>
    if leadsList sep (c :: cs) then
      acc.reverse :: splitOnFuel sep fuel (cs.drop (sep.length - 1)) []
    else splitOnFuel sep fuel cs (c :: acc)

/-- Python `text.split(sep)` on strings. -/
def pySplit (sep : String) (t : String) : List String :=
  (splitOnFuel sep.data t.data.length t.data []).map String.mk

/-- Python `" ".join(parts)` on strings. -/
def joinStrSpace : List String → String
  | [] => ""
  | [x] => x
  | x :: xs => x ++ " " ++ joinStrSpace xs

/-- Case-insensitive substring test: models `re.search` of a literal (or of a
literal alternation, applied per alternative) with `re.IGNORECASE`. -/
def containsCI (t pat : String) : Bool :=
  listContains (t.data.map Char.toUpper) (pat.data.map Char.toUpper)

/-- Ordered-dict field lookup (Python `dict[key]` / `dict.get(key)`). -/
def lookupField : ExtractedRecord → String → Option (Option String)
  | [], _ => none
  | (k, v) :: rest, key => if key = k then some v else lookupField rest key

/-- Python dict assignment `d[k] = v`: update in place if the key exists,
else append. -/
def dictSet (r : ExtractedRecord) (k : String) (v : Option String) : ExtractedRecord :=
  if r.any (fun p => p.1 == k) then
    r.map (fun p => if p.1 == k then (p.1, v) else p)
  else r ++ [(k, v)]

-- ===================== backtracking matcher combinators =====================

/-- Greedy Kleene star over a character class, with full backtracking: the
continuation receives (captured span, rest), longest capture first. -/
def capStar {α : Type} (p : Char → Bool) :
    List Char → (List Char → List Char → Option α) → Option α
  | [], k => k [] []
  | c :: cs, k =>
    if p c then
      match capStar p cs (fun cap rest => k (c :: cap) rest) with
      | some v => some v
      | none => k [] (c :: cs)
    else k [] (c :: cs)

/-- Greedy `+` over a character class, with backtracking. -/
def capPlus {α : Type} (p : Char → Bool)
    (cs : List Char) (k : List Char → List Char → Option α) : Option α :=
  match cs with
  | [] => none
  | c :: rest =>
    if p c then capStar p rest (fun cap r => k (c :: cap) r) else none

/-- `\s*`-style skipping star (capture discarded), with backtracking. -/
def skipStar {α : Type} (p : Char → Bool)
    (cs : List Char) (k : List Char → Option α) : Option α :=
  capStar p cs (fun _ r => k r)

/-- `+` with capture discarded. -/
def skipPlus {α : Type} (p : Char → Bool)
    (cs : List Char) (k : List Char → Option α) : Option α :=
  capPlus p cs (fun _ r => k r)

/-- Match a literal under a character comparison, no capture. -/
def litSeq {α : Type} (eqc : Char → Char → Bool) :
    List Char → List Char → (List Char → Option α) → Option α
  | [], cs, k => k cs
  | _ :: _, [], _ => none
  | l :: ls, c :: cs, k => if eqc l c then litSeq eqc ls cs k else none

/-- Match a literal under a character comparison, capturing the original
input span (needed by `re.IGNORECASE` captures). -/
def capLit {α : Type} (eqc : Char → Char → Bool) :
    List Char → List Char → (List Char → List Char → Option α) → Option α
  | [], cs, k => k [] cs
  | _ :: _, [], _ => none
  | l :: ls, c :: cs, k =>
    if eqc l c then capLit eqc ls cs (fun cap r => k (c :: cap) r) else none

/-- Match a single given character. -/
def chTok {α : Type} (ch : Char) (cs : List Char) (k : List Char → Option α) : Option α :=
  match cs with
  | c :: r => if c == ch then k r else none
  | [] => none

/-- Regex `.` : any character except newline. -/
def dotTok {α : Type} (cs : List Char) (k : List Char → Option α) : Option α :=
  match cs with
  | c :: r => if c ≠ '\n' then k r else none
  | [] => none

/-- Optional single character (`x?`), greedy with backtracking. -/
def optChar {α : Type} (ch : Char) (cs : List Char) (k : List Char → Option α) : Option α :=
  match cs with
  | c :: rest =>
    if c == ch then
      match k rest with
      | some v => some v
      | none => k (c :: rest)
    else k (c :: rest)
  | [] => k []

/-- `\d{1,2}` : one or two digits, greedy (two first), with backtracking. -/
def capD12 {α : Type} (cs : List Char) (k : List Char → List Char → Option α) : Option α :=
  match cs with
  | a :: b :: rest =>
    if isDigitChar a then
      if isDigitChar b then
        match k [a, b] rest with
        | some v => some v
        | none => k [a] (b :: rest)
      else k [a] (b :: rest)
    else none
  | [a] => if isDigitChar a then k [a] [] else none
  | [] => none

/-- `\d{n}` : exactly n digits. -/
def capDExact {α : Type} : Nat → List Char → (List Char → List Char → Option α) → Option α
  | 0, cs, k => k [] cs
  | n + 1, c :: cs, k =>
    if isDigitChar c then capDExact n cs (fun cap r => k (c :: cap) r) else none
  | _ + 1, [], _ => none

/-- A dash-or-slash separator character class, passed to the continuation. -/
def sepDS {α : Type} (cs : List Char) (k : Char → List Char → Option α) : Option α :=
  match cs with
  | c :: rest => if c == '-' || c == '/' then k c rest else none
  | [] => none

/-- `re.search` driver: try the position matcher at each start position,
leftmost first. -/
def searchFrom {α : Type} (m : List Char → Option α) : List Char → Option α
  | [] => m []
  | c :: cs =>
    match m (c :: cs) with
    | some v => some v
    | none => searchFrom m cs

/-- `re.search` driver that also tracks the previous character (needed for
word-boundary `\b` assertions). -/
def searchFromPrev {α : Type} (m : Option Char → List Char → Option α) :
    Option Char → List Char → Option α
  | prev, [] => m prev []
  | prev, c :: cs =>
    match m prev (c :: cs) with
    | some v => some v
    | none => searchFromPrev m (some c) cs

-- ===================== helper functions of main.py =====================

/-- The alternation removed by the first `re.sub` in `clean_text`. -/
def cleanLabels : List String :=
  ["Reference No", "Payment Receipt No", "Jenis Kelamin", "Kewarganegaraan",
   "Pekerjaan", "Alamat"]

/-- `re.sub(r"Reference No|...|Alamat", "", text)`: delete every
non-overlapping occurrence, scanning left to right, alternatives tried in
order at each position. The fuel argument (instantiated with the input
length, which the scan never exceeds) keeps the recursion structural. -/
def subLabelsFuel : Nat → List Char → List Char
  | 0, cs => cs
  | _ + 1, [] => []
  | fuel + 1, c :: cs =>
    match cleanLabels.find? (fun l => leadsList l.data (c :: cs)) with
    | some l => subLabelsFuel fuel (cs.drop (l.data.length - 1))
    | none => c :: subLabelsFuel fuel cs

def subLabels (cs : List Char) : List Char :=
  subLabelsFuel cs.length cs

/-- Characters kept by the negated-class re.sub of `clean_text`: ASCII
letters, digits, whitespace, comma, period, slash, dash. -/
def allowedCleanChar (c : Char) : Bool :=
  (('A' ≤ c && c ≤ 'Z') || ('a' ≤ c && c ≤ 'z') || c.isDigit || wsChar c
    || c = ',' || c = '.' || c = '/' || c = '-')

/-- `clean_text(text, is_name_or_pob)` of main.py (the `None` input branch
returns `""` and is subsumed by modelling the input as a string). -/
def clean_text (t : String) (is_name_or_pob : Bool) : String :=
  let t1 := subLabels t.data
  let t2 := if is_name_or_pob then t1.filter (fun c => c ≠ '.') else t1
  let t3 := stripChars (t2.filter allowedCleanChar)
  String.mk (joinWords (splitWs t3))

/-- Position matcher for the `format_date` pattern: two digits, a dash or
slash, two digits, a dash or slash, four digits; the three capture groups
(day, month, year) as character lists. -/
def dateMatchAt (cs : List Char) : Option (List Char × List Char × List Char) :=
  match cs with
  | d1 :: d2 :: s1 :: m1 :: m2 :: s2 :: y1 :: y2 :: y3 :: y4 :: _ =>
    if isDigitChar d1 && isDigitChar d2 && (s1 == '-' || s1 == '/') &&
        isDigitChar m1 && isDigitChar m2 && (s2 == '-' || s2 == '/') &&
        isDigitChar y1 && isDigitChar y2 && isDigitChar y3 && isDigitChar y4 then
      some ([d1, d2], [m1, m2], [y1, y2, y3, y4])
    else none
  | _ => none

/-- `format_date(date_str)` of main.py. -/
def format_date (s : String) : String :=
  if s = "" then ""
  else
    match searchFrom dateMatchAt s.data with
    | some (d, m, y) => String.mk (d ++ '/' :: m ++ '/' :: y)
    | none => s

/-- `split_birth_place_date(text)` of main.py: split on `", "`; with exactly
two parts return (stripped place, formatted date), else (text, None). -/
def split_birth_place_date (t : String) : String × Option String :=
  if t ≠ "" then
    match pySplit ", " t with
    | [p0, p1] => (stripStr p0, some (format_date p1))
    | _ => (t, none)
  else (t, none)

/-- `sanitize_filename_part(text)` of main.py. -/
def sanitize_filename_part (t : String) : String :=
  if t = "" then ""
  else
    let cs := t.data.map (fun c => if c = '\n' || c = '\r' then ' ' else c)
    let cs2 := stripChars (cs.filter (fun c => isWordChar c || wsChar c || c = '-'))
    if cs2.length > 30 then String.mk (stripChars (cs2.take 30))
    else String.mk cs2

/-- Python truthiness chain `a or b` for optional strings. -/
def orStr (a : Option String) (b : String) : String :=
  match a with
  | some v => if v = "" then b else v
  | none => b

/-- Python `extracted_data.get(k)`: `None` both for a missing key and for a
stored `None` value (the two are indistinguishable to the `or` chains). -/
def pyGetField (d : ExtractedRecord) (k : String) : Option String :=
  match lookupField d k with
  | some v => v
  | none => none

/-- `generate_new_filename(extracted_data, use_name, use_passport)` of main.py. -/
def generate_new_filename (d : ExtractedRecord) (use_name use_passport : Bool) : String :=
  let name_raw :=
    orStr (pyGetField d "Name") (orStr (pyGetField d "Nama TKA") "")
  let passport_raw :=
    orStr (pyGetField d "Passport Number")
      (orStr (pyGetField d "Nomor Paspor")
        (orStr (pyGetField d "Passport No")
          (orStr (pyGetField d "KITAS/KITAP") "")))
  let name := if use_name && !(name_raw == "") then sanitize_filename_part name_raw else ""
  let passport :=
    if use_passport && !(passport_raw == "") then sanitize_filename_part passport_raw else ""
  let parts := [name, passport].filter (fun p => p != "")
  let base_name := if parts.isEmpty then "RENAMED" else joinStrSpace parts
  base_name ++ ".pdf"

-- ===================== shared pattern shapes =====================

/-- Search for `<label>\s*:\s*(<cls>+)` (shape shared by several extractor
patterns); returns the capture. -/
def searchLabelColonPlus (eqc : Char → Char → Bool) (label : String)
    (cls : Char → Bool) (cs : List Char) : Option (List Char) :=
  searchFrom (fun s =>
    litSeq eqc label.data s (fun r1 =>
    skipStar wsChar r1 (fun r2 =>
    chTok ':' r2 (fun r3 =>
    skipStar wsChar r3 (fun r4 =>
    capPlus cls r4 (fun cap _ => some cap)))))) cs

/-- Search for `<label>\s*: (<cls>+)` — colon followed by one literal space,
as in several ITAS patterns; returns the capture. -/
def searchLabelColonSpacePlus (label : String)
    (cls : Char → Bool) (cs : List Char) : Option (List Char) :=
  searchFrom (fun s =>
    litSeq csEq label.data s (fun r1 =>
    skipStar wsChar r1 (fun r2 =>
    litSeq csEq ": ".data r2 (fun r3 =>
    capPlus cls r3 (fun cap _ => some cap))))) cs

/-- One-or-two digits, then a dash-or-slash, then one-or-two digits, then a
dash-or-slash, then four digits; continuation receives the whole matched
span (regex group 0 for the fallback pattern, group 1 elsewhere). -/
def flexDateCap {α : Type} (cs : List Char) (k : String → List Char → Option α) : Option α :=
  capD12 cs (fun d r1 =>
  sepDS r1 (fun s1 r2 =>
  capD12 r2 (fun m r3 =>
  sepDS r3 (fun s2 r4 =>
  capDExact 4 r4 (fun y r5 => k (String.mk (d ++ s1 :: m ++ s2 :: y)) r5)))))

/-- Exactly two digits, dash-or-slash, two digits, dash-or-slash, four
digits; continuation receives the matched span. -/
def capDate224 {α : Type} (cs : List Char) (k : String → List Char → Option α) : Option α :=
  capDExact 2 cs (fun d r1 =>
  sepDS r1 (fun s1 r2 =>
  capDExact 2 r2 (fun m r3 =>
  sepDS r3 (fun s2 r4 =>
  capDExact 4 r4 (fun y r5 => k (String.mk (d ++ s1 :: m ++ s2 :: y)) r5)))))

/-- Ordered alternation of case-insensitive literals with original-case
capture. -/
def altCapLitCI {α : Type} :
    List String → List Char → (List Char → List Char → Option α) → Option α
  | [], _, _ => none
  | n :: rest, cs, k =>
    match capLit ciEq n.data cs k with
    | some v => some v
    | none => altCapLitCI rest cs k

-- ===================== extract_sktt =====================

def skttNikSearch (cs : List Char) : Option (List Char) :=
  searchLabelColonPlus csEq "NIK/Number of Population Identity" isDigitChar cs

def skttNameSearch (cs : List Char) : Option (List Char) :=
  searchLabelColonPlus csEq "Nama/Name" (fun c => isWordChar c || wsChar c) cs

def skttGenderSearch (cs : List Char) : Option String :=
  searchFrom (fun s =>
    litSeq csEq "Jenis Kelamin/Sex".data s (fun r1 =>
    skipStar wsChar r1 (fun r2 =>
    chTok ':' r2 (fun r3 =>
    skipStar wsChar r3 (fun r4 =>
    match litSeq csEq "MALE".data r4 (fun _ => some "MALE") with
    | some v => some v
    | none => litSeq csEq "FEMALE".data r4 (fun _ => some "FEMALE")))))) cs

def skttBirthSearch (cs : List Char) : Option (List Char) :=
  searchLabelColonPlus csEq "Tempat/Tgl Lahir"
    (fun c => isWordChar c || wsChar c || c = ',' || c.isDigit || c = '-') cs

def skttNationalitySearch (cs : List Char) : Option (List Char) :=
  searchLabelColonPlus csEq "Kewarganegaraan/Nationality" (fun c => isWordChar c || wsChar c) cs

def skttOccupationSearch (cs : List Char) : Option (List Char) :=
  searchLabelColonPlus csEq "Pekerjaan/Occupation" (fun c => isWordChar c || wsChar c) cs

def skttAddressSearch (cs : List Char) : Option (List Char) :=
  searchLabelColonPlus csEq "Alamat/Address"
    (fun c => isWordChar c || wsChar c || c = ',' || c = '.' || c = '/' || c = '-') cs

def skttKitasSearch (cs : List Char) : Option (List Char) :=
  searchLabelColonPlus csEq "Nomor KITAP/KITAS Number" (fun c => isWordChar c || c = '-') cs

/-- The expiry label of extract_sktt: its regex spells `s.d` with a bare
regex dot, matching any non-newline character there. -/
def skttExpirySearch (cs : List Char) : Option (List Char) :=
  searchFrom (fun s =>
    litSeq csEq "Berlaku Hingga s".data s (fun r1 =>
    dotTok r1 (fun r2 =>
    litSeq csEq "d/Expired date".data r2 (fun r3 =>
    skipStar wsChar r3 (fun r4 =>
    chTok ':' r4 (fun r5 =>
    skipStar wsChar r5 (fun r6 =>
    capPlus (fun c => isDigitChar c || c = '-') r6 (fun cap _ => some cap)))))))) cs

/-- The signature-line pattern of extract_sktt: an uppercase-or-whitespace
run, a comma, optional whitespace, and a dashed two-two-four date; returns
group 2 (the date). -/
def kepalaDateSearch (cs : List Char) : Option String :=
  searchFrom (fun s =>
    capPlus (fun c => isUpperAlpha c || wsChar c) s (fun _ r1 =>
    chTok ',' r1 (fun r2 =>
    skipStar wsChar r2 (fun r3 =>
    capDExact 2 r3 (fun d r4 =>
    chTok '-' r4 (fun r5 =>
    capDExact 2 r5 (fun m r6 =>
    chTok '-' r6 (fun r7 =>
    capDExact 4 r7 (fun y _ =>
    some (String.mk (d ++ '-' :: m ++ '-' :: y)))))))))))  cs

/-- The Date Issue line scan of extract_sktt: stop at the first line whose
uppercasing contains "KEPALA DINAS" and match the preceding line. -/
def skttIssueScan : Option String → List String → Option String
  | _, [] => none
  | prev, l :: rest =>
    if containsCI l "KEPALA DINAS" then
      match prev with
      | none => none
      | some pl => kepalaDateSearch pl.data
    else skttIssueScan (some l) rest

/-- `extract_sktt(text)` of main.py. -/
def extract_sktt (t : String) : ExtractedRecord :=
  let cs := t.data
  let nik := skttNikSearch cs
  let name := skttNameSearch cs
  let gender := skttGenderSearch cs
  let bpd := skttBirthSearch cs
  let nationality := skttNationalitySearch cs
  let occupation := skttOccupationSearch cs
  let address := skttAddressSearch cs
  let kitas := skttKitasSearch cs
  let expiry := skttExpirySearch cs
  let lines := pySplit "\n" (stripStr t)
  let date_issue := skttIssueScan none lines
  let bp : Option String × Option String :=
    match bpd with
    | some cap =>
      let p := split_birth_place_date (String.mk cap)
      (some p.1, p.2)
    | none => (none, none)
  [("NIK", nik.map String.mk),
   ("Name", name.map (fun c => clean_text (String.mk c) true)),
   ("Jenis Kelamin", gender),
   ("Place of Birth",
     match bp.1 with
     | some s => if s = "" then none else some (clean_text s true)
     | none => none),
   ("Date of Birth", bp.2),
   ("Nationality", nationality.map (fun c => clean_text (String.mk c) false)),
   ("Occupation", occupation.map (fun c => clean_text (String.mk c) false)),
   ("Address", address.map (fun c => clean_text (String.mk c) false)),
   ("KITAS/KITAP", kitas.map (fun c => clean_text (String.mk c) false)),
   ("Passport Expiry", expiry.map (fun c => format_date (String.mk c))),
   ("Date Issue",
     match date_issue with
     | some d => if d = "" then none else some (format_date d)
     | none => none),
   ("Jenis Dokumen", some "SKTT")]

-- ===================== extract_evln =====================

/-- Suffix part of a word-boundary search: the word itself (case
insensitive) followed by a non-word character or the end. -/
def wbAfter (word : String) (s : List Char) : Option Unit :=
  litSeq ciEq word.data s (fun r =>
    match r with
    | c :: _ => if isWordChar c then none else some ()
    | [] => some ())

/-- Case-insensitive word-boundary-delimited word search (regex
`\bword\b` under IGNORECASE). -/
def wbSearchCI (word : String) (cs : List Char) : Bool :=
  (searchFromPrev (fun prev s =>
    match prev with
    | some c => if isWordChar c then none else wbAfter word s
    | none => wbAfter word s) none cs).isSome

/-- Line condition for the salutation scan: "Dear" (case insensitive)
followed by at least one whitespace character. -/
def evlnDearCond (line : String) : Bool :=
  (searchFrom (fun s =>
    litSeq ciEq "Dear".data s (fun r =>
      match r with
      | c :: _ => if wsChar c then some () else none
      | [] => none)) line.data).isSome

def evlnNameCond (line : String) : Bool :=
  wbSearchCI "Name" line.data || wbSearchCI "Nama" line.data

def evlnPobCond (line : String) : Bool :=
  wbSearchCI "Place of Birth" line.data || wbSearchCI "Tempat Lahir" line.data

def evlnDobCond (line : String) : Bool :=
  wbSearchCI "Date of Birth" line.data || wbSearchCI "Tanggal Lahir" line.data

def evlnPassNoCond (line : String) : Bool :=
  wbSearchCI "Passport No" line.data

def evlnPassExpCond (line : String) : Bool :=
  wbSearchCI "Passport Expiry" line.data

/-- The in-line date pattern of extract_evln: an all-slash or an all-dash
two-two-four date (ordered alternation). -/
def dateAltFixed (sep : Char) (s : List Char) : Option String :=
  capDExact 2 s (fun d r1 =>
  chTok sep r1 (fun r2 =>
  capDExact 2 r2 (fun m r3 =>
  chTok sep r3 (fun r4 =>
  capDExact 4 r4 (fun y _ => some (String.mk (d ++ sep :: m ++ sep :: y)))))))

def dateAltSearch (cs : List Char) : Option String :=
  searchFrom (fun s =>
    match dateAltFixed '/' s with
    | some v => some v
    | none => dateAltFixed '-' s) cs

/-- Position part of the passport-number pattern: an uppercase-or-digit run
delimited by word boundaries (case sensitive). -/
def passNoAt (s : List Char) : Option String :=
  capPlus (fun c => isUpperAlpha c || isDigitChar c) s (fun cap r =>
    match r with
    | c :: _ => if isWordChar c then none else some (String.mk cap)
    | [] => some (String.mk cap))

def evlnPassNoValue (cs : List Char) : Option String :=
  searchFromPrev (fun prev s =>
    match prev with
    | some c => if isWordChar c then none else passNoAt s
    | none => passNoAt s) none cs

/-- Position matcher of the Visa-Type re.sub of extract_evln: optional
whitespace, "Visa", optional whitespace, "Type", optional whitespace, then
anything up to the end of the line; returns the remainder after the match. -/
def visaTypeAt (cs : List Char) : Option (List Char) :=
  skipStar wsChar cs (fun r1 =>
  litSeq csEq "Visa".data r1 (fun r2 =>
  skipStar wsChar r2 (fun r3 =>
  litSeq csEq "Type".data r3 (fun r4 =>
  skipStar wsChar r4 (fun r5 =>
  skipStar (fun c => c != '\n') r5 (fun r6 => some r6))))))

/-- The Visa-Type re.sub itself (every non-overlapping occurrence deleted);
the fuel argument bounds the recursion by the input length, which suffices
because every match consumes at least the literal "Visa". -/
def visaTypeSubFuel : Nat → List Char → List Char
  | 0, cs => cs
  | _ + 1, [] => []
  | fuel + 1, c :: cs =>
    match visaTypeAt (c :: cs) with
    | some rem => visaTypeSubFuel fuel rem
    | none => c :: visaTypeSubFuel fuel cs

def visaTypeSub (cs : List Char) : List Char :=
  visaTypeSubFuel cs.length cs

structure EvlnState where
  name : String
  pob : String
  dob : String
  passNo : String
  passExp : String

/-- One iteration of the line loop of extract_evln (the if-elif chain). -/
def evlnStep (st : EvlnState) (line : String) : EvlnState :=
  if st.name == "" && evlnNameCond line then
    match pySplit ":" line with
    | _ :: p1 :: _ => { st with name := clean_text p1 true }
    | _ => st
  else if evlnPobCond line then
    match pySplit ":" line with
    | _ :: p1 :: _ =>
      let pobText := stripStr p1
      let pobCleaned := String.mk (visaTypeSub pobText.data)
      { st with pob := clean_text pobCleaned true }
    | _ => st
  else if evlnDobCond line then
    match dateAltSearch line.data with
    | some d => { st with dob := format_date d }
    | none => st
  else if evlnPassNoCond line then
    match evlnPassNoValue line.data with
    | some v => { st with passNo := v }
    | none => st
  else if evlnPassExpCond line then
    match dateAltSearch line.data with
    | some d => { st with passExp := format_date d }
    | none => st
  else st

/-- The salutation scan of extract_evln: at the first "Dear"-matching line,
take the next line if its stripped length is strictly between 3 and 50. -/
def evlnDearScan : List String → String
  | [] => ""
  | l :: rest =>
    if evlnDearCond l then
      match rest with
      | [] => ""
      | nxt :: _ =>
        let cand := stripStr nxt
        if 3 < cand.length && cand.length < 50 then clean_text cand true else ""
    else evlnDearScan rest

/-- Label alternation of the first issue-date pattern of extract_evln. -/
def evlnIssueLabel1 {α : Type} (cs : List Char) (k : List Char → Option α) : Option α :=
  match litSeq ciEq "Date".data cs (fun r =>
      skipPlus wsChar r (fun r2 =>
      litSeq ciEq "of".data r2 (fun r3 =>
      skipPlus wsChar r3 (fun r4 =>
      litSeq ciEq "Issue".data r4 k)))) with
  | some v => some v
  | none =>
  match litSeq ciEq "Issue".data cs (fun r =>
      skipPlus wsChar r (fun r2 =>
      litSeq ciEq "Date".data r2 k)) with
  | some v => some v
  | none =>
  match litSeq ciEq "Issued".data cs (fun r =>
      skipPlus wsChar r (fun r2 =>
      litSeq ciEq "on".data r2 k)) with
  | some v => some v
  | none =>
    litSeq ciEq "Tanggal".data cs (fun r =>
      skipPlus wsChar r (fun r2 =>
      litSeq ciEq "Penerbitan".data r2 k))

/-- Label alternation of the second issue-date pattern of extract_evln. -/
def evlnIssueLabel2 {α : Type} (cs : List Char) (k : List Char → Option α) : Option α :=
  match litSeq ciEq "Issued".data cs k with
  | some v => some v
  | none => litSeq ciEq "Diterbitkan".data cs k

def evlnIssue1 (cs : List Char) : Option String :=
  searchFrom (fun s =>
    evlnIssueLabel1 s (fun r =>
    skipStar wsChar r (fun r2 =>
    optChar ':' r2 (fun r3 =>
    skipStar wsChar r3 (fun r4 =>
    flexDateCap r4 (fun d _ => some d)))))) cs

def evlnIssue2 (cs : List Char) : Option String :=
  searchFrom (fun s =>
    evlnIssueLabel2 s (fun r =>
    skipStar wsChar r (fun r2 =>
    optChar ':' r2 (fun r3 =>
    skipStar wsChar r3 (fun r4 =>
    flexDateCap r4 (fun d _ => some d)))))) cs

/-- `extract_evln(text)` of main.py. -/
def extract_evln (t : String) : ExtractedRecord :=
  let lines := pySplit "\n" t
  let st0 : EvlnState :=
    { name := evlnDearScan lines, pob := "", dob := "", passNo := "", passExp := "" }
  let st := lines.foldl evlnStep st0
  let dateIssue :=
    match evlnIssue1 t.data with
    | some d => format_date d
    | none =>
      match evlnIssue2 t.data with
      | some d => format_date d
      | none => ""
  [("Name", some st.name),
   ("Place of Birth", some st.pob),
   ("Date of Birth", some st.dob),
   ("Passport No", some st.passNo),
   ("Passport Expiry", some st.passExp),
   ("Date Issue", some dateIssue),
   ("Jenis Dokumen", some "EVLN")]

-- ===================== extract_itas / extract_itk =====================

/-- The name pattern of extract_itas: an uppercase-or-whitespace run
directly followed by a newline and "PERMIT NUMBER" (case sensitive,
longest run first as the greedy class includes the newline). -/
def itasNameSearch (cs : List Char) : Option (List Char) :=
  searchFrom (fun s =>
    capPlus (fun c => isUpperAlpha c || wsChar c) s (fun cap r =>
      litSeq csEq "\nPERMIT NUMBER".data r (fun _ => some cap))) cs

def itasPermitSearch (cs : List Char) : Option (List Char) :=
  searchLabelColonPlus csEq "PERMIT NUMBER"
    (fun c => isUpperAlpha c || isDigitChar c || c = '-') cs

def itasStaySearch (cs : List Char) : Option (List Char) :=
  searchLabelColonPlus csEq "STAY PERMIT EXPIRY" (fun c => isDigitChar c || c = '/') cs

/-- The place-and-date-of-birth pattern of extract_itas: the label,
optional whitespace, a greedy non-newline run, a colon, optional
whitespace, a letters-or-whitespace capture, optional whitespace, a slash,
optional whitespace, a digits-or-dash capture. -/
def itasPlaceDobSearch (cs : List Char) : Option (List Char × List Char) :=
  searchFrom (fun s =>
    litSeq csEq "Place / Date of Birth".data s (fun r1 =>
    skipStar wsChar r1 (fun r2 =>
    skipStar (fun c => c != '\n') r2 (fun r3 =>
    chTok ':' r3 (fun r4 =>
    skipStar wsChar r4 (fun r5 =>
    capPlus (fun c => isAlphaChar c || wsChar c) r5 (fun cap1 r6 =>
    skipStar wsChar r6 (fun r7 =>
    chTok '/' r7 (fun r8 =>
    skipStar wsChar r8 (fun r9 =>
    capPlus (fun c => isDigitChar c || c = '-') r9 (fun cap2 _ =>
    some (cap1, cap2)))))))))))) cs

def itasPassportSearch (cs : List Char) : Option (List Char) :=
  searchLabelColonSpacePlus "Passport Number" (fun c => isUpperAlpha c || isDigitChar c) cs

def itasPassExpSearch (cs : List Char) : Option (List Char) :=
  searchLabelColonSpacePlus "Passport Expiry" (fun c => isDigitChar c || c = '-') cs

def itasNatSearch (cs : List Char) : Option (List Char) :=
  searchLabelColonSpacePlus "Nationality" isUpperAlpha cs

def itasGenderSearch (cs : List Char) : Option (List Char) :=
  searchLabelColonSpacePlus "Gender" isUpperAlpha cs

def itasAddressSearch (cs : List Char) : Option (List Char) :=
  searchLabelColonPlus csEq "Address" (fun c => c != '\n') cs

def itasOccupationSearch (cs : List Char) : Option (List Char) :=
  searchLabelColonPlus csEq "Occupation" (fun c => c != '\n') cs

def itasGuarantorSearch (cs : List Char) : Option (List Char) :=
  searchLabelColonPlus csEq "Guarantor" (fun c => c != '\n') cs

/-- The prose issue-date pattern of extract_itas: a letter run, a comma,
optional whitespace, one-or-two digits, whitespace, a letter run (month
name), whitespace, four digits; returns (day, month, year). -/
def itasDateIssueSearch (cs : List Char) : Option (List Char × List Char × List Char) :=
  searchFrom (fun s =>
    capPlus isAlphaChar s (fun _ r1 =>
    chTok ',' r1 (fun r2 =>
    skipStar wsChar r2 (fun r3 =>
    capD12 r3 (fun day r4 =>
    skipPlus wsChar r4 (fun r5 =>
    capPlus isAlphaChar r5 (fun mon r6 =>
    skipPlus wsChar r6 (fun r7 =>
    capDExact 4 r7 (fun yr _ => some (day, mon, yr)))))))))) cs

/-- The last-resort anywhere-in-text date of extract_itas (its group 0). -/
def itasFallbackDate (cs : List Char) : Option String :=
  searchFrom (fun s => flexDateCap s (fun d _ => some d)) cs

/-- The English month-name table of extract_itas; a missing key falls back
to the key itself (`month_dict.get(month, month)`). -/
def engMonthNum (m : String) : String :=
  match [("January", "01"), ("February", "02"), ("March", "03"), ("April", "04"),
         ("May", "05"), ("June", "06"), ("July", "07"), ("August", "08"),
         ("September", "09"), ("October", "10"), ("November", "11"),
         ("December", "12")].find? (fun p => p.1 == m) with
  | some p => p.2
  | none => m

/-- `extract_itas(text)` of main.py. -/
def extract_itas (t : String) : ExtractedRecord :=
  let cs := t.data
  let dateIssueV : Option String :=
    match itasDateIssueSearch cs with
    | some (day, mon, yr) =>
      let monthNum := engMonthNum (String.mk mon)
      some (format_date (zfill2 (String.mk day) ++ "/" ++ monthNum ++ "/" ++ String.mk yr))
    | none =>
      match itasFallbackDate cs with
      | some whole => some (format_date whole)
      | none => none
  [("Name", (itasNameSearch cs).map (fun c => String.mk (stripChars c))),
   ("Permit Number", (itasPermitSearch cs).map String.mk),
   ("Stay Permit Expiry", (itasStaySearch cs).map (fun c => format_date (String.mk c))),
   ("Place & Date of Birth",
     match itasPlaceDobSearch cs with
     | some (p, d) =>
       some (String.mk (stripChars p) ++ ", " ++ format_date (String.mk (stripChars d)))
     | none => none),
   ("Passport Number", (itasPassportSearch cs).map String.mk),
   ("Passport Expiry", (itasPassExpSearch cs).map (fun c => format_date (String.mk c))),
   ("Nationality", (itasNatSearch cs).map String.mk),
   ("Gender", (itasGenderSearch cs).map String.mk),
   ("Address", (itasAddressSearch cs).map (fun c => String.mk (stripChars c))),
   ("Occupation", (itasOccupationSearch cs).map (fun c => String.mk (stripChars c))),
   ("Guarantor", (itasGuarantorSearch cs).map (fun c => String.mk (stripChars c))),
   ("Date Issue", dateIssueV),
   ("Jenis Dokumen", some "ITAS")]

/-- `extract_itk(text)` of main.py: reuses the ITAS logic and overwrites
the document-type tag. -/
def extract_itk (t : String) : ExtractedRecord :=
  dictSet (extract_itas t) "Jenis Dokumen" (some "ITK")

-- ===================== extract_notifikasi / extract_dkptka =====================

/-- The decision-number pattern of the decree extractors: "NOMOR" (case
insensitive), whitespace, then a run of letters, digits, period, slash,
dash. -/
def decreeNomorSearch (cs : List Char) : Option String :=
  searchFrom (fun s =>
    litSeq ciEq "NOMOR".data s (fun r1 =>
    skipPlus wsChar r1 (fun r2 =>
    capPlus (fun c => isAlphaChar c || isDigitChar c || c = '.' || c = '/' || c = '-') r2
      (fun cap _ => some (String.mk cap))))) cs

/-- The labeled-line pattern of the decree extractors: the label (case
insensitive), optional whitespace, a colon, optional whitespace, then the
rest of the line (possibly empty). -/
def decreeLabelFind (label : String) (cs : List Char) : Option String :=
  searchFrom (fun s =>
    litSeq ciEq label.data s (fun r1 =>
    skipStar wsChar r1 (fun r2 =>
    chTok ':' r2 (fun r3 =>
    skipStar wsChar r3 (fun r4 =>
    capStar (fun c => c != '\n') r4 (fun cap _ => some (String.mk cap))))))) cs

/-- The optional "s.d"-or-"sampai dengan" separator of the first validity
pattern (ordered, greedy, case insensitive, dots optional). -/
def sdToken {α : Type} (cs : List Char) (k : List Char → Option α) : Option α :=
  match litSeq ciEq "s".data cs (fun r1 =>
      optChar '.' r1 (fun r2 =>
      litSeq ciEq "d".data r2 (fun r3 =>
      optChar '.' r3 k))) with
  | some v => some v
  | none =>
    match litSeq ciEq "sampai dengan".data cs k with
    | some v => some v
    | none => k cs

/-- First validity pattern: "Berlaku", optional colon, a date, an optional
separator, a second date. -/
def decreeBerlaku1 (cs : List Char) : Option (String × String) :=
  searchFrom (fun s =>
    litSeq ciEq "Berlaku".data s (fun r1 =>
    skipStar wsChar r1 (fun r2 =>
    optChar ':' r2 (fun r3 =>
    skipStar wsChar r3 (fun r4 =>
    capDate224 r4 (fun g1 r5 =>
    skipStar wsChar r5 (fun r6 =>
    sdToken r6 (fun r7 =>
    skipStar wsChar r7 (fun r8 =>
    capDate224 r8 (fun g2 _ => some (g1, g2))))))))))) cs

/-- Second validity pattern: "Tanggal Berlaku" with a mandatory
"s.d"-style separator (dots optional). -/
def decreeBerlaku2 (cs : List Char) : Option (String × String) :=
  searchFrom (fun s =>
    litSeq ciEq "Tanggal Berlaku".data s (fun r1 =>
    skipStar wsChar r1 (fun r2 =>
    optChar ':' r2 (fun r3 =>
    skipStar wsChar r3 (fun r4 =>
    capDate224 r4 (fun g1 r5 =>
    skipStar wsChar r5 (fun r6 =>
    litSeq ciEq "s".data r6 (fun r7 =>
    optChar '.' r7 (fun r8 =>
    litSeq ciEq "d".data r8 (fun r9 =>
    optChar '.' r9 (fun r10 =>
    skipStar wsChar r10 (fun r11 =>
    capDate224 r11 (fun g2 _ => some (g1, g2)))))))))))))) cs

def indoMonths : List String :=
  ["Januari", "Februari", "Maret", "April", "Mei", "Juni", "Juli", "Agustus",
   "September", "Oktober", "November", "Desember"]

/-- The prose issue-date pattern of the decree extractors: "Pada tanggal",
a colon, one-or-two digits, an Indonesian month name, four digits. -/
def decreePadaTanggal (cs : List Char) : Option (String × String × String) :=
  searchFrom (fun s =>
    litSeq ciEq "Pada tanggal".data s (fun r1 =>
    skipStar wsChar r1 (fun r2 =>
    chTok ':' r2 (fun r3 =>
    skipStar wsChar r3 (fun r4 =>
    capD12 r4 (fun day r5 =>
    skipPlus wsChar r5 (fun r6 =>
    altCapLitCI indoMonths r6 (fun mon r7 =>
    skipPlus wsChar r7 (fun r8 =>
    capDExact 4 r8 (fun yr _ =>
    some (String.mk day, String.mk mon, String.mk yr)))))))))) ) cs

/-- The Indonesian month-name table of the decree extractors; an unknown
name falls back to "01" (`month_dict.get(month_name.lower(), '01')`). -/
def indoMonthNum (m : String) : String :=
  match [("januari", "01"), ("februari", "02"), ("maret", "03"), ("april", "04"),
         ("mei", "05"), ("juni", "06"), ("juli", "07"), ("agustus", "08"),
         ("september", "09"), ("oktober", "10"), ("november", "11"),
         ("desember", "12")].find? (fun p => p.1 == m) with
  | some p => p.2
  | none => "01"

/-- `extract_notifikasi(text)` of main.py. -/
def extract_notifikasi (t : String) : ExtractedRecord :=
  let cs := t.data
  let find := fun (label : String) =>
    match decreeLabelFind label cs with
    | some g => stripStr g
    | none => ""
  let nomor :=
    match decreeNomorSearch cs with
    | some g => stripStr g
    | none => ""
  let valid :=
    match decreeBerlaku1 cs with
    | some p => some p
    | none => decreeBerlaku2 cs
  let berlakuStr :=
    match valid with
    | some (g1, g2) => format_date g1 ++ " - " ++ format_date g2
    | none => ""
  let dateIssue :=
    match decreePadaTanggal cs with
    | some (day, mon, yr) => zfill2 day ++ "/" ++ indoMonthNum (toLowerStr mon) ++ "/" ++ yr
    | none => ""
  [("Nomor Keputusan", some nomor),
   ("Nama TKA", some (find "Nama TKA")),
   ("Tempat/Tanggal Lahir", some (find "Tempat/Tanggal Lahir")),
   ("Kewarganegaraan", some (find "Kewarganegaraan")),
   ("Alamat Tempat Tinggal", some (find "Alamat Tempat Tinggal")),
   ("Nomor Paspor", some (find "Nomor Paspor")),
   ("Jabatan", some (find "Jabatan")),
   ("Lokasi Kerja", some (find "Lokasi Kerja")),
   ("Berlaku", some berlakuStr),
   ("Date Issue", some dateIssue),
   ("Jenis Dokumen", some "NOTIFIKASI")]

/-- `extract_dkptka(text)` of main.py — a verbatim duplicate of the
notification extractor in the source, except for the tag value. -/
def extract_dkptka (t : String) : ExtractedRecord :=
  let cs := t.data
  let find := fun (label : String) =>
    match decreeLabelFind label cs with
    | some g => stripStr g
    | none => ""
  let nomor :=
    match decreeNomorSearch cs with
    | some g => stripStr g
    | none => ""
  let valid :=
    match decreeBerlaku1 cs with
    | some p => some p
    | none => decreeBerlaku2 cs
  let berlakuStr :=
    match valid with
    | some (g1, g2) => format_date g1 ++ " - " ++ format_date g2
    | none => ""
  let dateIssue :=
    match decreePadaTanggal cs with
    | some (day, mon, yr) => zfill2 day ++ "/" ++ indoMonthNum (toLowerStr mon) ++ "/" ++ yr
    | none => ""
  [("Nomor Keputusan", some nomor),
   ("Nama TKA", some (find "Nama TKA")),
   ("Tempat/Tanggal Lahir", some (find "Tempat/Tanggal Lahir")),
   ("Kewarganegaraan", some (find "Kewarganegaraan")),
   ("Alamat Tempat Tinggal", some (find "Alamat Tempat Tinggal")),
   ("Nomor Paspor", some (find "Nomor Paspor")),
   ("Jabatan", some (find "Jabatan")),
   ("Lokasi Kerja", some (find "Lokasi Kerja")),
   ("Berlaku", some berlakuStr),
   ("Date Issue", some dateIssue),
   ("Jenis Dokumen", some "DKPTKA")]

-- ===================== detection and dispatch =====================

/-- `detect_document_type(text)` of main.py: ordered case-insensitive
marker searches, first match wins, otherwise UNKNOWN. -/
def detect_document_type (t : String) : String :=
  if containsCI t "SURAT KETERANGAN TENAGA KERJA TERDAFTAR" then "SKTT"
  else if containsCI t "ENTRY VISA" || containsCI t "VISA ENTRY" then "EVLN"
  else if containsCI t "STAY PERMIT" || containsCI t "PERMIT TO STAY"
      || containsCI t "IZIN TINGGAL" then "ITAS"
  else if containsCI t "IZIN TINGGAL KUNJUNGAN" || containsCI t "VISIT PERMIT" then "ITK"
  else if containsCI t "NOTIFIKASI" then "NOTIFIKASI"
  else if containsCI t "DKPTKA" then "DKPTKA"
  else "UNKNOWN"

/-- `extract_data_by_type(text, doc_type)` of main.py. -/
def extract_data_by_type (t : String) (doc_type : String) : ExtractedRecord :=
  if doc_type = "SKTT" then extract_sktt t
  else if doc_type = "EVLN" then extract_evln t
  else if doc_type = "ITAS" then extract_itas t
  else if doc_type = "ITK" then extract_itk t
  else if doc_type = "NOTIFIKASI" then extract_notifikasi t
  else if doc_type = "DKPTKA" then extract_dkptka t
  else [("error", some ("Unknown document type: " ++ doc_type))]

-- ===================== the bulk-extraction loop =====================

/-- One input of the bulk loop: its filename and the text the (external)
PDF text-extraction step produced for it. -/
structure BulkDoc where
  filename : String
  text : String

/-- One entry of `all_results` in the bulk loop. -/
inductive BulkOutcome where
  | success (filename : String) (docType : String) (data : ExtractedRecord)
  | failure (filename : String) (reason : String)
deriving DecidableEq

def isSuccessOutcome : BulkOutcome → Bool
  | .success _ _ _ => true
  | .failure _ _ => false

def isFailureOutcome : BulkOutcome → Bool
  | .success _ _ _ => false
  | .failure _ _ => true

/-- The per-document body of the bulk loop of `extract_bulk_documents`:
non-PDF filename and empty extracted text become failure entries, anything
else an extraction result (the modelled extractors are total, matching the
exception-free extraction paths of the source). -/
def processDoc (document_type : String) (d : BulkDoc) : BulkOutcome :=
  if !(endsWithStr (toLowerStr d.filename) ".pdf") then
    .failure d.filename "File must be a PDF"
  else if stripStr d.text = "" then
    .failure d.filename "No text found in PDF"
  else
    let current_doc_type :=
      if toLowerStr document_type = "auto" then detect_document_type d.text
      else document_type
    let extracted := extract_data_by_type d.text (toUpperStr current_doc_type)
    .success d.filename (toUpperStr current_doc_type)
      (dictSet extracted "Original_Filename" (some d.filename))

/-- The result-accumulating loop of `extract_bulk_documents`: one appended
outcome per input document, in order. -/
def extract_bulk_documents (document_type : String) : List BulkDoc → List BulkOutcome
  | [] => []
  | d :: ds => processDoc document_type d :: extract_bulk_documents document_type ds

-- ===================== spec-side definitions =====================

/-- Spec predicate: the canonical zero-padded `DD/MM/YYYY` shape with ASCII
digits (ten characters, digits and two slashes). -/
def isCanonDate (s : String) : Bool :=
  match s.data with
  | [d1, d2, s1, m1, m2, s2, y1, y2, y3, y4] =>
    isDigitChar d1 && isDigitChar d2 && s1 == '/' &&
    isDigitChar m1 && isDigitChar m2 && s2 == '/' &&
    isDigitChar y1 && isDigitChar y2 && isDigitChar y3 && isDigitChar y4
  | _ => false

/-- Spec predicate: a two-digit/two-digit/four-digit date pattern (with
dash or slash separators) starts right here. -/
def dmyAt (cs : List Char) : Bool :=
  match cs with
  | d1 :: d2 :: s1 :: m1 :: m2 :: s2 :: y1 :: y2 :: y3 :: y4 :: _ =>
    isDigitChar d1 && isDigitChar d2 && (s1 == '-' || s1 == '/') &&
    isDigitChar m1 && isDigitChar m2 && (s2 == '-' || s2 == '/') &&
    isDigitChar y1 && isDigitChar y2 && isDigitChar y3 && isDigitChar y4
  | _ => false

/-- Spec predicate: the string contains a two-digit/two-digit/four-digit
date pattern somewhere. -/
def hasDMYPattern (s : String) : Bool :=
  (List.range s.data.length).any (fun i => dmyAt (s.data.drop i))

-- ===================== format_date lemmas =====================

theorem dateMatchAt_isSome (cs : List Char) :
    (dateMatchAt cs).isSome = dmyAt cs := by
  unfold dateMatchAt dmyAt
  split
  · rename_i d1 d2 s1 m1 m2 s2 y1 y2 y3 y4 rest
    by_cases h : (isDigitChar d1 && isDigitChar d2 && (s1 == '-' || s1 == '/') &&
        isDigitChar m1 && isDigitChar m2 && (s2 == '-' || s2 == '/') &&
        isDigitChar y1 && isDigitChar y2 && isDigitChar y3 && isDigitChar y4) = true
    · rw [if_pos h, h]
      rfl
    · rw [if_neg h]
      exact (Bool.eq_false_iff.mpr h).symm
  · rfl

theorem dateMatchAt_none_iff (cs : List Char) :
    dateMatchAt cs = none ↔ dmyAt cs = false := by
  rw [← dateMatchAt_isSome]
  cases dateMatchAt cs <;> simp

theorem searchFrom_dateMatchAt_none_iff (cs : List Char) :
    searchFrom dateMatchAt cs = none ↔ ∀ i, dmyAt (cs.drop i) = false := by
  induction cs with
  | nil =>
    simp only [searchFrom, List.drop_nil]
    rw [dateMatchAt_none_iff]
    constructor
    · intro h _
      exact h
    · intro h
      exact h 0
  | cons c t ih =>
    simp only [searchFrom]
    cases h : dateMatchAt (c :: t) with
    | some v =>
      simp only []
      constructor
      · intro hc
        exact absurd hc (by simp)
      · intro hall
        have h0 := hall 0
        simp only [List.drop_zero] at h0
        rw [← dateMatchAt_none_iff] at h0
        rw [h] at h0
        exact absurd h0 (by simp)
    | none =>
      simp only []
      rw [ih]
      constructor
      · intro hall i
        cases i with
        | zero =>
          simp only [List.drop_zero]
          rw [← dateMatchAt_none_iff]
          exact h
        | succ j =>
          simp only [List.drop_succ_cons]
          exact hall j
      · intro hall i
        have := hall (i + 1)
        simpa using this

theorem hasDMY_false_iff (s : String) :
    hasDMYPattern s = false ↔ ∀ i, dmyAt (s.data.drop i) = false := by
  unfold hasDMYPattern
  rw [List.any_eq_false]
  constructor
  · intro h i
    by_cases hi : i < s.data.length
    · have := h i (List.mem_range.mpr hi)
      exact Bool.eq_false_iff.mpr this
    · have : s.data.drop i = [] := List.drop_eq_nil_of_le (by omega)
      rw [this]
      rfl
  · intro h i _
    exact Bool.eq_false_iff.mp (h i)

theorem format_date_passthrough (s : String) (h : hasDMYPattern s = false) :
    format_date s = s := by
  unfold format_date
  by_cases he : s = ""
  · rw [if_pos he, he]
  · rw [if_neg he]
    have := (hasDMY_false_iff s).mp h
    have hn : searchFrom dateMatchAt s.data = none :=
      (searchFrom_dateMatchAt_none_iff s.data).mpr this
    rw [hn]

theorem dateMatchAt_some_canon (cs : List Char) (d m y : List Char)
    (h : dateMatchAt cs = some (d, m, y)) :
    isCanonDate (String.mk (d ++ '/' :: m ++ '/' :: y)) = true := by
  unfold dateMatchAt at h
  split at h
  · rename_i d1 d2 s1 m1 m2 s2 y1 y2 y3 y4 rest
    split at h
    · rename_i hcond
      simp only [Option.some.injEq, Prod.mk.injEq] at h
      obtain ⟨hd, hm, hy⟩ := h
      subst hd hm hy
      simp only [Bool.and_eq_true, beq_iff_eq, Bool.or_eq_true] at hcond
      simp [isCanonDate, hcond]
    · exact absurd h (by simp)
  · exact absurd h (by simp)

theorem searchFrom_some_imp {α : Type} (m : List Char → Option α)
    (P : α → Prop) (hm : ∀ cs v, m cs = some v → P v) :
    ∀ cs v, searchFrom m cs = some v → P v := by
  intro cs
  induction cs with
  | nil =>
    intro v h
    exact hm [] v h
  | cons c t ih =>
    intro v h
    simp only [searchFrom] at h
    cases hh : m (c :: t) with
    | some w =>
      rw [hh] at h
      cases h
      exact hm _ _ hh
    | none =>
      rw [hh] at h
      exact ih v h

theorem format_date_canon (s : String) (h : hasDMYPattern s = true) :
    isCanonDate (format_date s) = true := by
  have hne : s ≠ "" := by
    intro he
    rw [he] at h
    simp [hasDMYPattern] at h
  unfold format_date
  rw [if_neg hne]
  cases hs : searchFrom dateMatchAt s.data with
  | none =>
    have := (searchFrom_dateMatchAt_none_iff s.data).mp hs
    have := (hasDMY_false_iff s).mpr this
    rw [this] at h
    exact absurd h (by simp)
  | some v =>
    obtain ⟨d, m, y⟩ := v
    simp only []
    exact searchFrom_some_imp dateMatchAt
      (fun p => isCanonDate (String.mk (p.1 ++ '/' :: p.2.1 ++ '/' :: p.2.2)) = true)
      (fun cs p hp => by
        obtain ⟨d1, m1, y1⟩ := p
        exact dateMatchAt_some_canon cs d1 m1 y1 hp)
      s.data (d, m, y) hs

/-- The "Passport Expiry" field of extract_sktt is the formatted capture of
the expiry pattern (or absent). -/
theorem sktt_passport_expiry_eq (t : String) :
    lookupField (extract_sktt t) "Passport Expiry" =
      some ((skttExpirySearch t.data).map (fun c => format_date (String.mk c))) := by
  simp [extract_sktt, lookupField]

/-- C9: format_date rewrites an embedded two-digit/two-digit/four-digit
date (dash or slash separated) to the slash form — in particular
"05-03-2024" becomes "05/03/2024" — and returns any input without such a
pattern unchanged (pass-through), never failing. -/
theorem claim_C9_format_date :
    format_date "05-03-2024" = "05/03/2024" ∧
    (∀ s, hasDMYPattern s = false → format_date s = s) ∧
    format_date "not a date" = "not a date" := by
  exact ⟨by decide, fun s h => format_date_passthrough s h, by decide⟩

/-- Witness for C9: the pass-through hypothesis discharged at a concrete
pattern-free input. -/
theorem claim_C9_format_date_witness :
    format_date "hello world" = "hello world" :=
  claim_C9_format_date.2.1 "hello world" (by decide)

/-- Counterexample to C1 as stated: on this input the SKTT extractor
returns a present (non-null, non-empty) "Date of Birth" field equal to
"ABC", which is not of the form DD/MM/YYYY — format_date passes raw text
through when the captured date part has no two-two-four pattern. -/
theorem claim_C1_cex :
    lookupField (extract_sktt "Tempat/Tgl Lahir : JAKARTA, ABC") "Date of Birth" =
      some (some "ABC") ∧
    isCanonDate "ABC" = false := by
  exact ⟨by decide, by decide⟩

/-- C1 (amended): a date field produced through format_date is in the
exact zero-padded DD/MM/YYYY ASCII form whenever the underlying string
contains a two-digit/two-digit/four-digit pattern; otherwise the raw
string is passed through unchanged, so a present date field is either
canonical or a raw value with no such pattern (shown here for the
"Passport Expiry" field of the SKTT extractor). -/
theorem claim_C1_date_field_shape :
    (∀ s, hasDMYPattern s = true → isCanonDate (format_date s) = true) ∧
    (∀ s, hasDMYPattern s = false → format_date s = s) ∧
    (∀ t v, lookupField (extract_sktt t) "Passport Expiry" = some (some v) →
      isCanonDate v = true ∨ hasDMYPattern v = false) := by
  refine ⟨fun s h => format_date_canon s h, fun s h => format_date_passthrough s h, ?_⟩
  intro t v h
  rw [sktt_passport_expiry_eq] at h
  cases hc : skttExpirySearch t.data with
  | none =>
    rw [hc] at h
    exact absurd h (by simp)
  | some cap =>
    rw [hc] at h
    simp only [Option.map_some', Option.some.injEq] at h
    by_cases hd : hasDMYPattern (String.mk cap) = true
    · left
      rw [← h]
      exact format_date_canon _ hd
    · right
      have hf : hasDMYPattern (String.mk cap) = false := Bool.eq_false_iff.mpr hd
      have hp := format_date_passthrough _ hf
      rw [← h, hp]
      exact hf

/-- Witness for C1: all three hypotheses discharged at concrete inputs,
the third at an SKTT text whose expiry field is present. -/
theorem claim_C1_date_field_shape_witness :
    isCanonDate (format_date "05-03-2024") = true ∧
    format_date "plain" = "plain" ∧
    (isCanonDate "01/01/2020" = true ∨ hasDMYPattern "01/01/2020" = false) := by
  refine ⟨claim_C1_date_field_shape.1 "05-03-2024" (by decide),
          claim_C1_date_field_shape.2.1 "plain" (by decide),
          claim_C1_date_field_shape.2.2 "Berlaku Hingga s.d/Expired date : 01-01-2020"
            "01/01/2020" (by decide)⟩

-- ===================== classifier spec and lemmas =====================

/-- The classifier's marker table in its fixed priority order, as described
by the spec: each rule is a list of alternative markers and the layout it
selects. -/
def markerRules : List (List String × String) :=
  [(["SURAT KETERANGAN TENAGA KERJA TERDAFTAR"], "SKTT"),
   (["ENTRY VISA", "VISA ENTRY"], "EVLN"),
   (["STAY PERMIT", "PERMIT TO STAY", "IZIN TINGGAL"], "ITAS"),
   (["IZIN TINGGAL KUNJUNGAN", "VISIT PERMIT"], "ITK"),
   (["NOTIFIKASI"], "NOTIFIKASI"),
   (["DKPTKA"], "DKPTKA")]

/-- Spec-side classifier: the first rule (in priority order) one of whose
markers occurs case-insensitively wins; with no match, UNKNOWN. -/
def detectSpec (t : String) : String :=
  match markerRules.find? (fun r => r.1.any (fun m => containsCI t m)) with
  | some r => r.2
  | none => "UNKNOWN"

theorem detect_eq_detectSpec (t : String) :
    detect_document_type t = detectSpec t := by
  unfold detect_document_type detectSpec markerRules
  simp only [List.find?, List.any_cons, List.any_nil, Bool.or_false]
  cases containsCI t "SURAT KETERANGAN TENAGA KERJA TERDAFTAR" <;>
    cases containsCI t "ENTRY VISA" <;>
    cases containsCI t "VISA ENTRY" <;>
    cases containsCI t "STAY PERMIT" <;>
    cases containsCI t "PERMIT TO STAY" <;>
    cases containsCI t "IZIN TINGGAL" <;>
    cases containsCI t "IZIN TINGGAL KUNJUNGAN" <;>
    cases containsCI t "VISIT PERMIT" <;>
    cases containsCI t "NOTIFIKASI" <;>
    cases containsCI t "DKPTKA" <;>
    rfl

theorem leadsList_trans (pre : List Char) :
    ∀ nee hay, leadsList pre nee = true → leadsList nee hay = true →
      leadsList pre hay = true := by
  induction pre with
  | nil =>
    intro nee hay _ _
    rfl
  | cons a as ih =>
    intro nee hay h1 h2
    cases nee with
    | nil => exact absurd h1 (by simp [leadsList])
    | cons b bs =>
      cases hay with
      | nil => exact absurd h2 (by simp [leadsList])
      | cons c cs =>
        simp only [leadsList, Bool.and_eq_true, beq_iff_eq] at h1 h2 ⊢
        exact ⟨h1.1.trans h2.1, ih bs cs h1.2 h2.2⟩

/-- Substring containment is monotone under taking a leading segment of the
pattern. -/
theorem listContains_of_leads (hay : List Char) :
    ∀ nee pre, leadsList pre nee = true → listContains hay nee = true →
      listContains hay pre = true := by
  induction hay with
  | nil =>
    intro nee pre hl hc
    simp only [listContains, List.isEmpty_iff] at hc
    subst hc
    cases pre with
    | nil => rfl
    | cons a as => exact absurd hl (by simp [leadsList])
  | cons c t ih =>
    intro nee pre hl hc
    simp only [listContains, Bool.or_eq_true] at hc ⊢
    cases hc with
    | inl h => exact Or.inl (leadsList_trans pre nee (c :: t) hl h)
    | inr h => exact Or.inr (ih nee pre hl h)

/-- A text containing the visit-permit marker "IZIN TINGGAL KUNJUNGAN"
also contains the stay-permit marker "IZIN TINGGAL". -/
theorem containsCI_izin_of_kunjungan (t : String)
    (h : containsCI t "IZIN TINGGAL KUNJUNGAN" = true) :
    containsCI t "IZIN TINGGAL" = true :=
  listContains_of_leads _ _ _ (by decide) h

/-- C4: detect_document_type tests the markers case-insensitively in the
fixed priority order SKTT, EVLN, ITAS, ITK, NOTIFIKASI, DKPTKA and returns
the layout of the first rule with an occurring marker (later rules only
when earlier ones fail); with no marker it returns UNKNOWN, and it is a
total function. -/
theorem claim_C4_detect_priority :
    (∀ t, detect_document_type t = detectSpec t) ∧
    (∀ t, (∀ r ∈ markerRules, ∀ m ∈ r.1, containsCI t m = false) →
      detect_document_type t = "UNKNOWN") := by
  refine ⟨detect_eq_detectSpec, ?_⟩
  intro t h
  have h1 := h (["SURAT KETERANGAN TENAGA KERJA TERDAFTAR"], "SKTT")
    (by simp [markerRules]) "SURAT KETERANGAN TENAGA KERJA TERDAFTAR" (by simp)
  have h2 := h (["ENTRY VISA", "VISA ENTRY"], "EVLN")
    (by simp [markerRules]) "ENTRY VISA" (by simp)
  have h3 := h (["ENTRY VISA", "VISA ENTRY"], "EVLN")
    (by simp [markerRules]) "VISA ENTRY" (by simp)
  have h4 := h (["STAY PERMIT", "PERMIT TO STAY", "IZIN TINGGAL"], "ITAS")
    (by simp [markerRules]) "STAY PERMIT" (by simp)
  have h5 := h (["STAY PERMIT", "PERMIT TO STAY", "IZIN TINGGAL"], "ITAS")
    (by simp [markerRules]) "PERMIT TO STAY" (by simp)
  have h6 := h (["STAY PERMIT", "PERMIT TO STAY", "IZIN TINGGAL"], "ITAS")
    (by simp [markerRules]) "IZIN TINGGAL" (by simp)
  have h7 := h (["IZIN TINGGAL KUNJUNGAN", "VISIT PERMIT"], "ITK")
    (by simp [markerRules]) "IZIN TINGGAL KUNJUNGAN" (by simp)
  have h8 := h (["IZIN TINGGAL KUNJUNGAN", "VISIT PERMIT"], "ITK")
    (by simp [markerRules]) "VISIT PERMIT" (by simp)
  have h9 := h (["NOTIFIKASI"], "NOTIFIKASI") (by simp [markerRules]) "NOTIFIKASI" (by simp)
  have h10 := h (["DKPTKA"], "DKPTKA") (by simp [markerRules]) "DKPTKA" (by simp)
  unfold detect_document_type
  simp [h1, h2, h3, h4, h5, h6, h7, h8, h9, h10]

/-- Witness for C4: the no-marker hypothesis discharged at a concrete
marker-free text. -/
theorem claim_C4_detect_priority_witness :
    detect_document_type "just some plain invoice text" = "UNKNOWN" :=
  claim_C4_detect_priority.2 "just some plain invoice text" (by decide)

/-- Counterexample to C10 as stated: this text contains (case
insensitively) "IZIN TINGGAL KUNJUNGAN", yet detect_document_type returns
SKTT, not ITAS, because the earlier SKTT marker also occurs. -/
theorem claim_C10_cex :
    containsCI "SURAT KETERANGAN TENAGA KERJA TERDAFTAR IZIN TINGGAL KUNJUNGAN"
      "IZIN TINGGAL KUNJUNGAN" = true ∧
    detect_document_type "SURAT KETERANGAN TENAGA KERJA TERDAFTAR IZIN TINGGAL KUNJUNGAN"
      = "SKTT" ∧
    ("SKTT" : String) ≠ "ITAS" := by
  exact ⟨by decide, by decide, by decide⟩

/-- C10 (amended): a text containing "IZIN TINGGAL KUNJUNGAN" is never
classified ITK (its stay-permit substring "IZIN TINGGAL" fires first), and
is classified ITAS provided no earlier SKTT or EVLN marker occurs; ITK is
returned exactly for texts containing "VISIT PERMIT" while containing none
of the SKTT, EVLN, or ITAS markers. -/
theorem claim_C10_itk_shadowed :
    (∀ t, containsCI t "IZIN TINGGAL KUNJUNGAN" = true →
      detect_document_type t ≠ "ITK") ∧
    (∀ t, containsCI t "IZIN TINGGAL KUNJUNGAN" = true →
      containsCI t "SURAT KETERANGAN TENAGA KERJA TERDAFTAR" = false →
      containsCI t "ENTRY VISA" = false →
      containsCI t "VISA ENTRY" = false →
      detect_document_type t = "ITAS") ∧
    (∀ t, detect_document_type t = "ITK" ↔
      (containsCI t "VISIT PERMIT" = true ∧
       containsCI t "SURAT KETERANGAN TENAGA KERJA TERDAFTAR" = false ∧
       containsCI t "ENTRY VISA" = false ∧
       containsCI t "VISA ENTRY" = false ∧
       containsCI t "STAY PERMIT" = false ∧
       containsCI t "PERMIT TO STAY" = false ∧
       containsCI t "IZIN TINGGAL" = false)) := by
  refine ⟨?_, ?_, ?_⟩
  · intro t h
    have hiz := containsCI_izin_of_kunjungan t h
    unfold detect_document_type
    split_ifs <;> simp_all
  · intro t h hs he1 he2
    have hiz := containsCI_izin_of_kunjungan t h
    unfold detect_document_type
    split_ifs <;> simp_all
  · intro t
    have hmono := containsCI_izin_of_kunjungan t
    constructor
    · intro hd
      unfold detect_document_type at hd
      split_ifs at hd with g1 g2 g3 g4 g5 g6 <;> simp_all
    · rintro ⟨hv, hs, he1, he2, hsp, hpts, hiz⟩
      have hkj : containsCI t "IZIN TINGGAL KUNJUNGAN" = false := by
        cases hk : containsCI t "IZIN TINGGAL KUNJUNGAN" with
        | false => rfl
        | true => exact absurd (hmono hk) (by simp_all)
      unfold detect_document_type
      simp [hs, he1, he2, hsp, hpts, hiz, hkj, hv]

/-- Witness for C10: the hypotheses discharged at concrete texts. -/
theorem claim_C10_itk_shadowed_witness :
    detect_document_type "izin tinggal kunjungan" ≠ "ITK" ∧
    detect_document_type "izin tinggal kunjungan" = "ITAS" ∧
    (detect_document_type "VISIT PERMIT" = "ITK" ↔
      (containsCI "VISIT PERMIT" "VISIT PERMIT" = true ∧
       containsCI "VISIT PERMIT" "SURAT KETERANGAN TENAGA KERJA TERDAFTAR" = false ∧
       containsCI "VISIT PERMIT" "ENTRY VISA" = false ∧
       containsCI "VISIT PERMIT" "VISA ENTRY" = false ∧
       containsCI "VISIT PERMIT" "STAY PERMIT" = false ∧
       containsCI "VISIT PERMIT" "PERMIT TO STAY" = false ∧
       containsCI "VISIT PERMIT" "IZIN TINGGAL" = false)) := by
  refine ⟨claim_C10_itk_shadowed.1 "izin tinggal kunjungan" (by decide),
          claim_C10_itk_shadowed.2.1 "izin tinggal kunjungan" (by decide) (by decide)
            (by decide) (by decide),
          claim_C10_itk_shadowed.2.2 "VISIT PERMIT"⟩

-- ===================== pipeline totality (C2) =====================

theorem extract_sktt_ne_nil (t : String) : extract_sktt t ≠ [] := by
  simp [extract_sktt]

theorem extract_evln_ne_nil (t : String) : extract_evln t ≠ [] := by
  simp [extract_evln]

theorem extract_itas_ne_nil (t : String) : extract_itas t ≠ [] := by
  simp [extract_itas]

theorem extract_notifikasi_ne_nil (t : String) : extract_notifikasi t ≠ [] := by
  simp [extract_notifikasi]

theorem extract_dkptka_ne_nil (t : String) : extract_dkptka t ≠ [] := by
  simp [extract_dkptka]

theorem dictSet_ne_nil (r : ExtractedRecord) (k : String) (v : Option String)
    (h : r ≠ []) : dictSet r k v ≠ [] := by
  unfold dictSet
  split
  · simp [List.map_eq_nil_iff, h]
  · simp

theorem extract_itk_ne_nil (t : String) : extract_itk t ≠ [] :=
  dictSet_ne_nil _ _ _ (extract_itas_ne_nil t)

/-- C2: classification always lands in the closed layout enumeration
(possibly UNKNOWN), and the composed pipeline — detection followed by
type-dispatched extraction — is a total function returning a non-empty
record for every input text (the embedding is exception-free, matching the
raise-free extraction paths of the source). -/
theorem claim_C2_pipeline_total :
    ∀ t, detect_document_type t ∈
        ["SKTT", "EVLN", "ITAS", "ITK", "NOTIFIKASI", "DKPTKA", "UNKNOWN"] ∧
      extract_data_by_type t (detect_document_type t) ≠ [] := by
  intro t
  have hmem : detect_document_type t ∈
      ["SKTT", "EVLN", "ITAS", "ITK", "NOTIFIKASI", "DKPTKA", "UNKNOWN"] := by
    unfold detect_document_type
    split_ifs <;> simp
  refine ⟨hmem, ?_⟩
  simp only [List.mem_cons, List.not_mem_nil, or_false] at hmem
  rcases hmem with h | h | h | h | h | h | h <;> rw [h] <;>
    simp [extract_data_by_type, extract_sktt_ne_nil, extract_evln_ne_nil,
      extract_itas_ne_nil, extract_itk_ne_nil, extract_notifikasi_ne_nil,
      extract_dkptka_ne_nil]

-- ===================== decree extractor agreement (C5) =====================

/-- The ten fields shared verbatim by the two decree extractors (their
common prefix before the layout tag). -/
def decreeCommon (t : String) : ExtractedRecord :=
  let cs := t.data
  let find := fun (label : String) =>
    match decreeLabelFind label cs with
    | some g => stripStr g
    | none => ""
  let nomor :=
    match decreeNomorSearch cs with
    | some g => stripStr g
    | none => ""
  let valid :=
    match decreeBerlaku1 cs with
    | some p => some p
    | none => decreeBerlaku2 cs
  let berlakuStr :=
    match valid with
    | some (g1, g2) => format_date g1 ++ " - " ++ format_date g2
    | none => ""
  let dateIssue :=
    match decreePadaTanggal cs with
    | some (day, mon, yr) => zfill2 day ++ "/" ++ indoMonthNum (toLowerStr mon) ++ "/" ++ yr
    | none => ""
  [("Nomor Keputusan", some nomor),
   ("Nama TKA", some (find "Nama TKA")),
   ("Tempat/Tanggal Lahir", some (find "Tempat/Tanggal Lahir")),
   ("Kewarganegaraan", some (find "Kewarganegaraan")),
   ("Alamat Tempat Tinggal", some (find "Alamat Tempat Tinggal")),
   ("Nomor Paspor", some (find "Nomor Paspor")),
   ("Jabatan", some (find "Jabatan")),
   ("Lokasi Kerja", some (find "Lokasi Kerja")),
   ("Berlaku", some berlakuStr),
   ("Date Issue", some dateIssue)]

theorem extract_notifikasi_eq_common (t : String) :
    extract_notifikasi t = decreeCommon t ++ [("Jenis Dokumen", some "NOTIFIKASI")] := rfl

theorem extract_dkptka_eq_common (t : String) :
    extract_dkptka t = decreeCommon t ++ [("Jenis Dokumen", some "DKPTKA")] := rfl

theorem lookupField_append_tag (pre : ExtractedRecord) (tag : String)
    (v : Option String) (k : String) (hk : k ≠ tag) :
    lookupField (pre ++ [(tag, v)]) k = lookupField pre k := by
  induction pre with
  | nil => simp [lookupField, hk]
  | cons p rest ih =>
    obtain ⟨k0, v0⟩ := p
    simp only [List.cons_append, lookupField]
    split
    · rfl
    · exact ih

/-- C5: the worker-notification and compensation-decree extractors agree on
every field except the "Jenis Dokumen" layout tag. -/
theorem claim_C5_decree_agree :
    ∀ t k, k ≠ "Jenis Dokumen" →
      lookupField (extract_notifikasi t) k = lookupField (extract_dkptka t) k := by
  intro t k hk
  rw [extract_notifikasi_eq_common, extract_dkptka_eq_common,
    lookupField_append_tag _ _ _ _ hk, lookupField_append_tag _ _ _ _ hk]

/-- Witness for C5 at a concrete text and field. -/
theorem claim_C5_decree_agree_witness :
    lookupField (extract_notifikasi "") "Nama TKA" =
      lookupField (extract_dkptka "") "Nama TKA" :=
  claim_C5_decree_agree "" "Nama TKA" (by decide)

-- ===================== field-miss representation (C3) =====================

/-- Counterexample to C3 as stated: for the EVLN extractor a missed Name
pattern yields the empty string, not null — the field is present with
value `some ""` rather than `none`. -/
theorem claim_C3_cex :
    lookupField (extract_evln "") "Name" = some (some "") ∧
    (some (some "") : Option (Option String)) ≠ some none := by
  exact ⟨by decide, by decide⟩

/-- C3 (amended): a missed field pattern never removes the field or fails:
the field stays present with a miss value, which is the empty string for
the decree extractors (and EVLN) but null for the SKTT family. -/
theorem claim_C3_field_miss :
    (∀ t, decreeLabelFind "Nama TKA" t.data = none →
      lookupField (extract_notifikasi t) "Nama TKA" = some (some "")) ∧
    (∀ t, decreeLabelFind "Kewarganegaraan" t.data = none →
      lookupField (extract_notifikasi t) "Kewarganegaraan" = some (some "")) ∧
    (∀ t, decreeBerlaku1 t.data = none → decreeBerlaku2 t.data = none →
      lookupField (extract_notifikasi t) "Berlaku" = some (some "")) ∧
    (∀ t, skttNikSearch t.data = none →
      lookupField (extract_sktt t) "NIK" = some none) ∧
    (∀ t, skttExpirySearch t.data = none →
      lookupField (extract_sktt t) "Passport Expiry" = some none) := by
  refine ⟨?_, ?_, ?_, ?_, ?_⟩
  · intro t h
    simp [extract_notifikasi, lookupField, h]
  · intro t h
    simp [extract_notifikasi, lookupField, h]
  · intro t h1 h2
    simp [extract_notifikasi, lookupField, h1, h2]
  · intro t h
    simp [extract_sktt, lookupField, h]
  · intro t h
    simp [extract_sktt, lookupField, h]

/-- Witness for C3: the miss hypotheses discharged at the empty text. -/
theorem claim_C3_field_miss_witness :
    lookupField (extract_notifikasi "") "Nama TKA" = some (some "") ∧
    lookupField (extract_notifikasi "") "Kewarganegaraan" = some (some "") ∧
    lookupField (extract_notifikasi "") "Berlaku" = some (some "") ∧
    lookupField (extract_sktt "") "NIK" = some none ∧
    lookupField (extract_sktt "") "Passport Expiry" = some none := by
  exact ⟨claim_C3_field_miss.1 "" (by decide),
         claim_C3_field_miss.2.1 "" (by decide),
         claim_C3_field_miss.2.2.1 "" (by decide) (by decide),
         claim_C3_field_miss.2.2.2.1 "" (by decide),
         claim_C3_field_miss.2.2.2.2 "" (by decide)⟩

-- ===================== filename synthesis (C6) =====================

/-- Spec-side selection: the first key of the list whose stored value is a
non-empty string wins. -/
def selectFirstNonEmpty (d : ExtractedRecord) : List String → String
  | [] => ""
  | k :: ks =>
    let v := (pyGetField d k).getD ""
    if v = "" then selectFirstNonEmpty d ks else v

/-- Spec-side filename synthesiser, following the claim's wording with the
identifying-number priority order as the code has it: "Passport Number",
then "Nomor Paspor", then "Passport No", then "KITAS/KITAP". -/
def genSpecFilename (d : ExtractedRecord) (use_name use_passport : Bool) : String :=
  let nameSel := selectFirstNonEmpty d ["Name", "Nama TKA"]
  let passSel := selectFirstNonEmpty d
    ["Passport Number", "Nomor Paspor", "Passport No", "KITAS/KITAP"]
  let name := if use_name then sanitize_filename_part nameSel else ""
  let passport := if use_passport then sanitize_filename_part passSel else ""
  let parts := [name, passport].filter (fun p => p != "")
  (if parts.isEmpty then "RENAMED" else joinStrSpace parts) ++ ".pdf"

theorem selectFirstNonEmpty_cons (d : ExtractedRecord) (k : String) (ks : List String) :
    selectFirstNonEmpty d (k :: ks) = orStr (pyGetField d k) (selectFirstNonEmpty d ks) := by
  simp only [selectFirstNonEmpty, orStr]
  cases pyGetField d k with
  | none => simp
  | some v => by_cases hv : v = "" <;> simp [hv]

theorem sanitize_cond_eq (b : Bool) (s : String) :
    (if b && !(s == "") then sanitize_filename_part s else "") =
      (if b then sanitize_filename_part s else "") := by
  cases b <;> by_cases hs : s = "" <;> simp [hs, sanitize_filename_part]

theorem stripChars_sublist (cs : List Char) : List.Sublist (stripChars cs) cs := by
  unfold stripChars
  have h1 : List.Sublist (cs.dropWhile wsChar) cs := List.dropWhile_sublist _
  have h2 : List.Sublist ((cs.dropWhile wsChar).reverse.dropWhile wsChar)
      ((cs.dropWhile wsChar).reverse) := List.dropWhile_sublist _
  have h3 := h2.reverse
  rw [List.reverse_reverse] at h3
  exact h3.trans h1

/-- Counterexample to C6 as stated: with "Passport No" = "A" and
"Nomor Paspor" = "B" both populated, the code picks "B" — "Nomor Paspor"
is consulted before "Passport No", not after as the claim orders them. -/
theorem claim_C6_cex :
    generate_new_filename [("Passport No", some "A"), ("Nomor Paspor", some "B")]
      true true = "B.pdf" ∧
    ("B.pdf" : String) ≠ "A.pdf" := by
  exact ⟨by decide, by decide⟩

/-- C6 (amended): the identifying number is the first non-empty value among
"Passport Number", "Nomor Paspor", "Passport No", "KITAS/KITAP" in that
priority order; each included part is independently sanitized to word
characters, whitespace and hyphens and truncated to at most 30 characters;
the result is the space-join of the non-empty included parts suffixed
".pdf", and exactly "RENAMED.pdf" when both parts are empty or excluded. -/
theorem claim_C6_filename :
    (∀ d un up, generate_new_filename d un up = genSpecFilename d un up) ∧
    (∀ s, (sanitize_filename_part s).length ≤ 30 ∧
      ∀ c ∈ (sanitize_filename_part s).data, isWordChar c || wsChar c || c = '-') ∧
    (∀ d, generate_new_filename d false false = "RENAMED.pdf") := by
  refine ⟨?_, ?_, ?_⟩
  · intro d un up
    simp only [generate_new_filename, genSpecFilename]
    have hname : orStr (pyGetField d "Name") (orStr (pyGetField d "Nama TKA") "")
        = selectFirstNonEmpty d ["Name", "Nama TKA"] := by
      rw [selectFirstNonEmpty_cons, selectFirstNonEmpty_cons]
      rfl
    have hpass : orStr (pyGetField d "Passport Number")
        (orStr (pyGetField d "Nomor Paspor")
          (orStr (pyGetField d "Passport No") (orStr (pyGetField d "KITAS/KITAP") "")))
        = selectFirstNonEmpty d
            ["Passport Number", "Nomor Paspor", "Passport No", "KITAS/KITAP"] := by
      rw [selectFirstNonEmpty_cons, selectFirstNonEmpty_cons, selectFirstNonEmpty_cons,
        selectFirstNonEmpty_cons]
      rfl
    rw [hname, hpass, sanitize_cond_eq, sanitize_cond_eq]
  · intro s
    constructor
    · unfold sanitize_filename_part
      split
      · simp
      · dsimp only
        split
        · exact le_trans (stripChars_sublist _).length_le
            (by rw [List.length_take]; omega)
        · rename_i hle
          simp only [not_lt] at hle
          exact hle
    · intro c hc
      unfold sanitize_filename_part at hc
      split at hc
      · simp at hc
      · dsimp only at hc
        split at hc
        · have h2 := (stripChars_sublist _).subset hc
          have h3 := (List.take_sublist _ _).subset h2
          have h4 := (stripChars_sublist _).subset h3
          exact (List.mem_filter.mp h4).2
        · have h2 := (stripChars_sublist _).subset hc
          exact (List.mem_filter.mp h2).2
  · intro d
    rfl

-- ===================== bulk loop (C7) =====================

theorem extract_bulk_eq_map (dt : String) (docs : List BulkDoc) :
    extract_bulk_documents dt docs = docs.map (processDoc dt) := by
  induction docs with
  | nil => rfl
  | cons d ds ih => simp [extract_bulk_documents, ih]

/-- The five-document batch of the claim's example: document #3 (1-based)
has empty extracted text, the others are ordinary non-empty documents. -/
def demoBatch : List BulkDoc :=
  [⟨"a.pdf", "alpha"⟩, ⟨"b.pdf", "beta"⟩, ⟨"c.pdf", ""⟩,
   ⟨"d.pdf", "delta"⟩, ⟨"e.pdf", "epsilon"⟩]

/-- C7: the bulk loop yields exactly one outcome per input document, in
input order, each outcome depending only on its own document (the loop is
the pointwise map of the per-document body, so one failure never removes,
reorders or aborts the siblings); on the claim's example batch of five with
document #3 empty, the result has length 5 with entry #3 a failure and the
other four successes in original positions. -/
theorem claim_C7_bulk_loop :
    (∀ dt docs, (extract_bulk_documents dt docs).length = docs.length ∧
      extract_bulk_documents dt docs = docs.map (processDoc dt)) ∧
    ((extract_bulk_documents "auto" demoBatch).length = 5 ∧
     isSuccessOutcome ((extract_bulk_documents "auto" demoBatch).getD 0 (.failure "" "")) = true ∧
     isSuccessOutcome ((extract_bulk_documents "auto" demoBatch).getD 1 (.failure "" "")) = true ∧
     isFailureOutcome ((extract_bulk_documents "auto" demoBatch).getD 2 (.failure "" "")) = true ∧
     isSuccessOutcome ((extract_bulk_documents "auto" demoBatch).getD 3 (.failure "" "")) = true ∧
     isSuccessOutcome ((extract_bulk_documents "auto" demoBatch).getD 4 (.failure "" "")) = true) := by
  refine ⟨?_, by decide, by decide, by decide, by decide, by decide, by decide⟩
  intro dt docs
  refine ⟨?_, extract_bulk_eq_map dt docs⟩
  rw [extract_bulk_eq_map]
  exact List.length_map _ _

-- ===================== clean_text idempotence machinery (C8) =====================

theorem subLabelsFuel_id : ∀ (cs : List Char) (fuel : Nat),
    (∀ lab ∈ cleanLabels, listContains cs lab.data = false) →
    subLabelsFuel fuel cs = cs := by
  intro cs
  induction cs with
  | nil =>
    intro fuel _
    cases fuel <;> rfl
  | cons c t ih =>
    intro fuel h
    cases fuel with
    | zero => rfl
    | succ n =>
      have hfind : cleanLabels.find? (fun l => leadsList l.data (c :: t)) = none := by
        rw [List.find?_eq_none]
        intro lab hmem
        have hl := h lab hmem
        simp only [listContains, Bool.or_eq_false_iff] at hl
        simp [hl.1]
      simp only [subLabelsFuel, hfind]
      have ht : ∀ lab ∈ cleanLabels, listContains t lab.data = false := by
        intro lab hmem
        have hl := h lab hmem
        simp only [listContains, Bool.or_eq_false_iff] at hl
        exact hl.2
      rw [ih n ht]

theorem subLabels_id (cs : List Char)
    (h : ∀ lab ∈ cleanLabels, listContains cs lab.data = false) :
    subLabels cs = cs :=
  subLabelsFuel_id cs cs.length h

/-- Soundness of the whitespace split: every produced word is non-empty and
made of non-whitespace characters drawn from the accumulator or the input. -/
theorem splitWsAux_sound : ∀ (cs acc : List Char),
    (∀ c ∈ acc, wsChar c = false) →
    ∀ w ∈ splitWsAux cs acc, w ≠ [] ∧ ∀ c ∈ w, wsChar c = false ∧ (c ∈ acc ∨ c ∈ cs) := by
  intro cs
  induction cs with
  | nil =>
    intro acc hacc w hw
    simp only [splitWsAux] at hw
    split at hw
    · simp at hw
    · rename_i hne
      simp only [List.mem_singleton] at hw
      subst hw
      refine ⟨?_, ?_⟩
      · intro hrev
        rw [List.reverse_eq_nil_iff] at hrev
        rw [hrev] at hne
        exact hne rfl
      · intro c hc
        rw [List.mem_reverse] at hc
        exact ⟨hacc c hc, Or.inl hc⟩
  | cons a t ih =>
    intro acc hacc w hw
    simp only [splitWsAux] at hw
    split at hw
    · split at hw
      · have hres := ih [] (by simp) w hw
        refine ⟨hres.1, fun c hc => ⟨(hres.2 c hc).1, ?_⟩⟩
        rcases (hres.2 c hc).2 with h | h
        · simp at h
        · exact Or.inr (List.mem_cons_of_mem _ h)
      · rcases List.mem_cons.mp hw with h | h
        · subst h
          rename_i _ hne
          refine ⟨?_, ?_⟩
          · intro hrev
            rw [List.reverse_eq_nil_iff] at hrev
            rw [hrev] at hne
            exact hne rfl
          · intro c hc
            rw [List.mem_reverse] at hc
            exact ⟨hacc c hc, Or.inl hc⟩
        · have hres := ih [] (by simp) w h
          refine ⟨hres.1, fun c hc => ⟨(hres.2 c hc).1, ?_⟩⟩
          rcases (hres.2 c hc).2 with h1 | h1
          · simp at h1
          · exact Or.inr (List.mem_cons_of_mem _ h1)
    · rename_i hnws
      have ha : wsChar a = false := Bool.eq_false_iff.mpr hnws
      have hacc2 : ∀ c ∈ a :: acc, wsChar c = false := by
        intro c hc
        rcases List.mem_cons.mp hc with h | h
        · rw [h]; exact ha
        · exact hacc c h
      have hres := ih (a :: acc) hacc2 w hw
      refine ⟨hres.1, fun c hc => ⟨(hres.2 c hc).1, ?_⟩⟩
      rcases (hres.2 c hc).2 with h | h
      · rcases List.mem_cons.mp h with h1 | h1
        · exact Or.inr (h1 ▸ List.mem_cons_self _ _)
        · exact Or.inl h1
      · exact Or.inr (List.mem_cons_of_mem _ h)

theorem splitWs_sound (cs : List Char) :
    ∀ w ∈ splitWs cs, w ≠ [] ∧ ∀ c ∈ w, wsChar c = false ∧ c ∈ cs := by
  intro w hw
  have hres := splitWsAux_sound cs [] (by simp) w hw
  refine ⟨hres.1, fun c hc => ⟨(hres.2 c hc).1, ?_⟩⟩
  rcases (hres.2 c hc).2 with h | h
  · simp at h
  · exact h

theorem splitWsAux_append_word : ∀ (w : List Char),
    (∀ c ∈ w, wsChar c = false) →
    ∀ (cs acc : List Char), splitWsAux (w ++ cs) acc = splitWsAux cs (w.reverse ++ acc) := by
  intro w
  induction w with
  | nil =>
    intro _ cs acc
    simp
  | cons a t ih =>
    intro hw cs acc
    have ha : wsChar a = false := hw a (List.mem_cons_self _ _)
    have ht : ∀ c ∈ t, wsChar c = false := fun c hc => hw c (List.mem_cons_of_mem _ hc)
    simp only [List.cons_append, splitWsAux]
    rw [if_neg (by simp [ha])]
    show splitWsAux (t ++ cs) (a :: acc) = splitWsAux cs ((a :: t).reverse ++ acc)
    rw [ih ht cs (a :: acc)]
    congr 1
    simp [List.reverse_cons, List.append_assoc]

/-- Splitting the space-join of non-empty whitespace-free words recovers
exactly the word list. -/
theorem splitWs_joinWords : ∀ (ws : List (List Char)),
    (∀ w ∈ ws, w ≠ [] ∧ ∀ c ∈ w, wsChar c = false) →
    splitWs (joinWords ws) = ws := by
  intro ws
  induction ws with
  | nil =>
    intro _
    rfl
  | cons w rest ih =>
    intro h
    have hw := h w (List.mem_cons_self _ _)
    have hwrev : ¬(w.reverse.isEmpty = true) := by
      simp [List.isEmpty_iff, hw.1]
    cases rest with
    | nil =>
      show splitWs (joinWords [w]) = [w]
      unfold splitWs
      calc splitWsAux (joinWords [w]) [] = splitWsAux (w ++ []) [] := by
            simp [joinWords]
        _ = splitWsAux [] (w.reverse ++ []) := splitWsAux_append_word w hw.2 [] []
        _ = [w] := by
            simp only [List.append_nil, splitWsAux]
            rw [if_neg hwrev]
            rw [List.reverse_reverse]
    | cons w2 rest2 =>
      show splitWs (w ++ ' ' :: joinWords (w2 :: rest2)) = w :: w2 :: rest2
      unfold splitWs
      rw [splitWsAux_append_word w hw.2]
      simp only [List.append_nil, splitWsAux]
      rw [if_pos (by decide : wsChar ' ' = true), if_neg hwrev, List.reverse_reverse]
      have ih2 := ih (fun w' hw' => h w' (List.mem_cons_of_mem _ hw'))
      unfold splitWs at ih2
      rw [ih2]

theorem joinWords_mem : ∀ (ws : List (List Char)) (c : Char),
    c ∈ joinWords ws → c = ' ' ∨ ∃ w ∈ ws, c ∈ w := by
  intro ws
  induction ws with
  | nil =>
    intro c hc
    simp [joinWords] at hc
  | cons w rest ih =>
    intro c hc
    cases rest with
    | nil =>
      exact Or.inr ⟨w, List.mem_cons_self _ _, hc⟩
    | cons w2 r2 =>
      rcases List.mem_append.mp hc with h | h
      · exact Or.inr ⟨w, List.mem_cons_self _ _, h⟩
      · rcases List.mem_cons.mp h with h1 | h1
        · exact Or.inl h1
        · rcases ih c h1 with h2 | ⟨w', hw', hc'⟩
          · exact Or.inl h2
          · exact Or.inr ⟨w', List.mem_cons_of_mem _ hw', hc'⟩

theorem joinWords_ne_nil (w : List Char) (ws : List (List Char)) (hw : w ≠ []) :
    joinWords (w :: ws) ≠ [] := by
  cases ws with
  | nil => exact hw
  | cons w2 r2 =>
    show w ++ ' ' :: joinWords (w2 :: r2) ≠ []
    simp

theorem mem_of_getLast?_eq (l : List Char) (c : Char) (h : l.getLast? = some c) :
    c ∈ l := by
  induction l with
  | nil => exact absurd h (by simp)
  | cons a t ih =>
    cases t with
    | nil =>
      simp only [List.getLast?_singleton, Option.some.injEq] at h
      rw [h]
      exact List.mem_cons_self _ _
    | cons b r =>
      rw [List.getLast?_cons_cons] at h
      exact List.mem_cons_of_mem _ (ih h)

theorem joinWords_head_mem (w : List Char) (ws : List (List Char)) (hw : w ≠ []) :
    ∀ c, (joinWords (w :: ws)).head? = some c → c ∈ w := by
  intro c hc
  cases w with
  | nil => exact absurd rfl hw
  | cons a t =>
    cases ws with
    | nil =>
      simp only [joinWords, List.head?_cons, Option.some.injEq] at hc
      rw [← hc]
      exact List.mem_cons_self _ _
    | cons w2 r2 =>
      have : joinWords ((a :: t) :: w2 :: r2) = a :: (t ++ ' ' :: joinWords (w2 :: r2)) := by
        simp [joinWords]
      rw [this, List.head?_cons, Option.some.injEq] at hc
      rw [← hc]
      exact List.mem_cons_self _ _

theorem joinWords_getLast_mem : ∀ (ws : List (List Char)),
    (∀ w ∈ ws, w ≠ []) →
    ∀ c, (joinWords ws).getLast? = some c → ∃ w ∈ ws, c ∈ w := by
  intro ws
  induction ws with
  | nil =>
    intro _ c hc
    simp [joinWords] at hc
  | cons w rest ih =>
    intro h c hc
    cases rest with
    | nil =>
      exact ⟨w, List.mem_cons_self _ _, mem_of_getLast?_eq _ _ hc⟩
    | cons w2 r2 =>
      have hX : joinWords (w2 :: r2) ≠ [] := joinWords_ne_nil _ _ (h w2 (by simp))
      have hjw : joinWords (w :: w2 :: r2) = w ++ ' ' :: joinWords (w2 :: r2) := rfl
      rw [hjw, List.getLast?_append_of_ne_nil _ (by simp)] at hc
      cases hXd : joinWords (w2 :: r2) with
      | nil => exact absurd hXd hX
      | cons x xs =>
        rw [hXd, List.getLast?_cons_cons] at hc
        have := ih (fun w' hw' => h w' (List.mem_cons_of_mem _ hw')) c (by rw [hXd]; exact hc)
        obtain ⟨w', hw', hc'⟩ := this
        exact ⟨w', List.mem_cons_of_mem _ hw', hc'⟩

theorem dropWhile_eq_self_of_head (p : Char → Bool) (l : List Char)
    (h : ∀ c, l.head? = some c → p c = false) : l.dropWhile p = l := by
  cases l with
  | nil => rfl
  | cons a t =>
    have := h a rfl
    simp [List.dropWhile_cons, this]

theorem stripChars_eq_self (l : List Char)
    (h1 : ∀ c, l.head? = some c → wsChar c = false)
    (h2 : ∀ c, l.getLast? = some c → wsChar c = false) : stripChars l = l := by
  unfold stripChars
  rw [dropWhile_eq_self_of_head _ _ h1]
  rw [dropWhile_eq_self_of_head _ _ (fun c hc => h2 c (by rwa [List.head?_reverse] at hc))]
  exact List.reverse_reverse l

/-- Counterexample to C8 as stated: removing the disallowed character "@"
splices the label fragment "Pekerjaan" together, so the second pass of
clean_text deletes it — re-running clean_text on its own output is not
always a no-op. -/
theorem claim_C8_cex :
    clean_text (clean_text "Pekerja@an" false) false ≠ clean_text "Pekerja@an" false := by
  decide

/-- C8 (amended): clean_text is idempotent on every input whose cleaned
output contains none of the six label fragments; in general character
removal can splice a new label occurrence together, which only the second
pass deletes. -/
theorem claim_C8_clean_idem :
    ∀ (s : String) (f : Bool),
      (∀ lab ∈ cleanLabels, listContains (clean_text s f).data lab.data = false) →
      clean_text (clean_text s f) f = clean_text s f := by
  intro s f hlab
  set t3 := stripChars (List.filter allowedCleanChar
    (if f then (subLabels s.data).filter (fun c => c ≠ '.') else subLabels s.data)) with ht3
  have hy : (clean_text s f).data = joinWords (splitWs t3) := rfl
  have hwords : ∀ w ∈ splitWs t3, w ≠ [] ∧ ∀ c ∈ w, wsChar c = false ∧ c ∈ t3 :=
    splitWs_sound t3
  have ht3mem : ∀ c ∈ t3, allowedCleanChar c = true := by
    intro c hc
    have h2 := (stripChars_sublist _).subset hc
    exact (List.mem_filter.mp h2).2
  have ht3dot : f = true → ∀ c ∈ t3, c ≠ '.' := by
    intro hf c hc
    have h2 := (stripChars_sublist _).subset hc
    have h3 := (List.mem_filter.mp h2).1
    rw [hf, if_pos rfl] at h3
    exact of_decide_eq_true (List.mem_filter.mp h3).2
  have hchar : ∀ c ∈ (clean_text s f).data, c = ' ' ∨ (c ∈ t3 ∧ wsChar c = false) := by
    intro c hc
    rw [hy] at hc
    rcases joinWords_mem _ c hc with h | ⟨w, hw, hcw⟩
    · exact Or.inl h
    · have hcw2 := (hwords w hw).2 c hcw
      exact Or.inr ⟨hcw2.2, hcw2.1⟩
  have h1 : subLabels (clean_text s f).data = (clean_text s f).data := subLabels_id _ hlab
  have h2 : (if f then ((clean_text s f).data).filter (fun c => c ≠ '.')
      else (clean_text s f).data) = (clean_text s f).data := by
    cases f with
    | false => rfl
    | true =>
      rw [if_pos rfl]
      apply List.filter_eq_self.mpr
      intro c hc
      apply decide_eq_true
      rcases hchar c hc with h | ⟨hmem, _⟩
      · rw [h]
        decide
      · exact ht3dot rfl c hmem
  have h3 : List.filter allowedCleanChar (clean_text s f).data = (clean_text s f).data := by
    apply List.filter_eq_self.mpr
    intro c hc
    rcases hchar c hc with h | ⟨hmem, _⟩
    · rw [h]
      decide
    · exact ht3mem c hmem
  have h4 : stripChars (clean_text s f).data = (clean_text s f).data := by
    apply stripChars_eq_self
    · intro c hc
      rw [hy] at hc
      cases hws : splitWs t3 with
      | nil =>
        rw [hws] at hc
        simp [joinWords] at hc
      | cons w rest =>
        rw [hws] at hc
        have hwmem : w ∈ splitWs t3 := by
          rw [hws]
          exact List.mem_cons_self _ _
        have hcw := joinWords_head_mem w rest (hwords w hwmem).1 c hc
        exact ((hwords w hwmem).2 c hcw).1
    · intro c hc
      rw [hy] at hc
      cases hws : splitWs t3 with
      | nil =>
        rw [hws] at hc
        simp [joinWords] at hc
      | cons w rest =>
        rw [hws] at hc
        have hne : ∀ w' ∈ w :: rest, w' ≠ [] := by
          intro w' hw'
          exact (hwords w' (by rw [hws]; exact hw')).1
        obtain ⟨w', hw', hcw⟩ := joinWords_getLast_mem (w :: rest) hne c hc
        exact ((hwords w' (by rw [hws]; exact hw')).2 c hcw).1
  have h5 : splitWs (clean_text s f).data = splitWs t3 := by
    rw [hy]
    exact splitWs_joinWords _
      (fun w hw => ⟨(hwords w hw).1, fun c hc => ((hwords w hw).2 c hc).1⟩)
  show String.mk (joinWords (splitWs (stripChars (List.filter allowedCleanChar
      (if f then (subLabels (clean_text s f).data).filter (fun c => c ≠ '.')
       else subLabels (clean_text s f).data))))) = clean_text s f
  rw [h1, h2, h3, h4, h5, ← hy]

/-- Witness for C8: the no-label hypothesis discharged at a concrete
input. -/
theorem claim_C8_clean_idem_witness :
    clean_text (clean_text "John Doe" true) true = clean_text "John Doe" true :=
  claim_C8_clean_idem "John Doe" true (by decide)

end PdfExtractor
